import Mathlib

/-!
# ImgLib BMP codec (`src/ImgLib/bmp_image.cpp`)

A shallow embedding of the 24-bit BGR bitmap encoder (`SaveBMP`) and decoder
(`LoadBMP`) and of the helpers they are built from, followed by the properties
proved about them.

Conventions of the embedding.

* C++ `int` / `int32_t` values are `Int`s in `[-2^31, 2^31)`, `unsigned` /
  `uint32_t` values are `Int`s in `[0, 2^32)`. Every conversion the C++ code
  performs is written out (`toUInt32`, `toInt32`, `toUInt16`).
* A file is the list of its bytes. An input stream carries the unread bytes and
  the three state bits of `std::ios`.
* A function that may leave by an exception (`std::vector` constructed with a
  negative size) or index a buffer out of bounds returns `none` there.
* The product `GetBMPStride(w) * h` of two `int`s is reduced to 32 bits. The code
  stores it into `uint32_t` fields only, which keep the low 32 bits of the exact
  product whether the multiplication is carried out in 32 or in 64 bits.
-/

namespace ImgLib

set_option autoImplicit false

/-! ## Machine integers and bytes -/

/-- One byte: `std::byte`, `char`, a colour channel. -/
abbrev Byte := Fin 256

/-- Conversion to `unsigned` / `uint32_t`: reduction modulo 2^32. -/
def toUInt32 (n : Int) : Int := n % 4294967296

/-- Conversion to `uint16_t`: reduction modulo 2^16. -/
def toUInt16 (n : Int) : Int := n % 65536

/-- Conversion to `int` / `int32_t`: the two's complement reading of the low 32 bits. -/
def toInt32 (n : Int) : Int := (n + 2147483648) % 4294967296 - 2147483648

/-- The low eight bits of an integer, as a byte. -/
def byteOf (n : Int) : Byte := ⟨(n % 256).toNat, by omega⟩

/-- Little-endian memory image of a 16-bit value. -/
def le16 (n : Int) : List Byte := [byteOf n, byteOf (n / 256)]

/-- Little-endian memory image of a 32-bit value. -/
def le32 (n : Int) : List Byte :=
  [byteOf n, byteOf (n / 256), byteOf (n / 65536), byteOf (n / 16777216)]

/-- The byte at index `i` of a memory image, as a number (0 outside the image). -/
def byteAt (b : List Byte) (i : Nat) : Int := ((b.getD i 0).val : Int)

/-- Little-endian `uint16_t` stored at offset `off`. -/
def rdU16 (b : List Byte) (off : Nat) : Int := byteAt b off + 256 * byteAt b (off + 1)

/-- Little-endian `uint32_t` stored at offset `off`. -/
def rdU32 (b : List Byte) (off : Nat) : Int :=
  byteAt b off + 256 * byteAt b (off + 1) + 65536 * byteAt b (off + 2)
    + 16777216 * byteAt b (off + 3)

/-- Little-endian `int32_t` stored at offset `off`. -/
def rdI32 (b : List Byte) (off : Nat) : Int := toInt32 (rdU32 b off)

/-! ## Stride -/

def kBMPOffset : Int := 3
def kBMPmultiple : Int := 4
def kLeftSideOffset : Int := kBMPOffset
def kRightSideOffset : Int := kBMPOffset

/-- Function `int GetBMPStride(int w)`: the constants are `unsigned`, so `w` is
converted to `unsigned`, the product, the sum and the final product are taken modulo
2^32, and the `unsigned` result is converted back to `int` by the `return`. -/
def GetBMPStride (w : Int) : Int :=
  toInt32 (toUInt32 (kBMPmultiple *
    (toUInt32 (toUInt32 (toUInt32 w * kLeftSideOffset) + kRightSideOffset) / kBMPmultiple)))

/-! ## Collaborators: colour and image -/

/-- Modelled from the spec: the `Color` value type (its header is not part of the
sources at hand): three 8-bit unsigned channels `r`, `g`, `b`. -/
structure Color where
  r : Byte
  g : Byte
  b : Byte
deriving DecidableEq

/-- Modelled from the spec: the black-constant constructor of `Color`. -/
def Color.Black : Color := ⟨0, 0, 0⟩

/-- Modelled from the spec: the `Image` container (its header is not part of the
sources at hand): a pixel grid of `width` by `height` colour cells addressable by
row. `pixels y x` is cell `x` of the row returned by `GetLine(y)`. The default
constructed image is the empty 0x0 image. -/
structure Image where
  width : Int := 0
  height : Int := 0
  pixels : Nat → Nat → Color := fun _ _ => Color.Black

/-- Modelled from the spec: the `(width, height, fillColor)` constructor. -/
def Image.new (w h : Int) (fill : Color) : Image := ⟨w, h, fun _ _ => fill⟩

/-- The default constructed image `Image{}`. -/
def Image.empty : Image := {}

def Image.GetWidth (image : Image) : Int := image.width

def Image.GetHeight (image : Image) : Int := image.height

/-- Modelled from the spec: `GetLine(y)`, the `width` contiguous cells of row `y`. -/
def Image.GetLine (image : Image) (y : Nat) : Nat → Color := image.pixels y

/-- The image after the cells of row `y` have been overwritten through the pointer
that `GetLine(y)` returned. -/
def Image.setLine (image : Image) (y : Nat) (line : Nat → Color) : Image :=
  { image with pixels := fun y' => if y' = y then line else image.pixels y' }

/-- The dimensions of an image are C++ `int`s and, by the contract of the encoder,
not negative. -/
def Image.WellFormed (image : Image) : Prop :=
  0 ≤ image.width ∧ image.width < 2147483648 ∧ 0 ≤ image.height ∧ image.height < 2147483648

instance (image : Image) : Decidable image.WellFormed := by
  unfold Image.WellFormed; infer_instance

/-! ## Header records -/

/-- Modelled from the spec: `PACKED_STRUCT_BEGIN` / `PACKED_STRUCT_END` (the header
that defines them is not part of the sources at hand) lay the record out without
padding, so `sizeof(BitmapInfoHeader)` is 40. -/
def sizeofBitmapInfoHeader : Nat := 40

/-- Modelled from the spec: with the packed layout `sizeof(BitmapFileHeader)` is 14. -/
def sizeofBitmapFileHeader : Nat := 14

structure BitmapInfoHeader where
  header_size : Int
  width : Int
  height : Int
  planes : Int
  bit_per_pixel : Int
  compress : Int
  image_size : Int
  x_resolution : Int
  y_resolution : Int
  count_used_colors : Int
  count_important_colors : Int
deriving DecidableEq

structure BitmapFileHeader where
  signature : Byte × Byte
  file_size : Int
  reserve1 : Int
  reserve2 : Int
  offset : Int
deriving DecidableEq

/-- The value-initialised record `BitmapInfoHeader info{}`: every field is zero. -/
def BitmapInfoHeader.zero : BitmapInfoHeader := ⟨0, 0, 0, 0, 0, 0, 0, 0, 0, 0, 0⟩

/-- The value-initialised record `BitmapFileHeader header{}`: every field is zero. -/
def BitmapFileHeader.zero : BitmapFileHeader := ⟨(0, 0), 0, 0, 0, 0⟩

/-- Constructor `BitmapInfoHeader(const Image&)`. Each assignment converts to the type
of the field. The product `GetBMPStride(w) * h` is a product of two `int`s (reduced to
32 bits) stored into a `uint32_t`. -/
def BitmapInfoHeader.ofImage (image : Image) : BitmapInfoHeader where
  header_size := toUInt32 sizeofBitmapInfoHeader
  width := toInt32 image.GetWidth
  height := toInt32 image.GetHeight
  planes := toUInt16 1
  bit_per_pixel := toUInt16 24
  compress := toUInt32 0
  image_size := toUInt32 (toInt32 (GetBMPStride image.GetWidth * image.GetHeight))
  x_resolution := toInt32 11811
  y_resolution := toInt32 11811
  count_used_colors := toInt32 0
  count_important_colors := toInt32 0x1000000

/-- Constructor `BitmapFileHeader(const Image&)`. The signature bytes are 'B' = 66 and
'M' = 77. The `int` product is widened to `size_t` for the two `sizeof` additions and
the sum is stored into a `uint32_t`. -/
def BitmapFileHeader.ofImage (image : Image) : BitmapFileHeader where
  signature := (byteOf 66, byteOf 77)
  file_size := toUInt32 (toInt32 (GetBMPStride image.GetWidth * image.GetHeight)
      + sizeofBitmapInfoHeader + sizeofBitmapFileHeader)
  reserve1 := toUInt16 0
  reserve2 := toUInt16 0
  offset := toUInt32 (sizeofBitmapFileHeader + sizeofBitmapInfoHeader)

/-- The 40 bytes of a `BitmapInfoHeader` object in memory (packed, little-endian). -/
def BitmapInfoHeader.toBytes (info : BitmapInfoHeader) : List Byte :=
  le32 info.header_size ++ le32 info.width ++ le32 info.height ++ le16 info.planes
    ++ le16 info.bit_per_pixel ++ le32 info.compress ++ le32 info.image_size
    ++ le32 info.x_resolution ++ le32 info.y_resolution ++ le32 info.count_used_colors
    ++ le32 info.count_important_colors

/-- The 14 bytes of a `BitmapFileHeader` object in memory (packed, little-endian). -/
def BitmapFileHeader.toBytes (header : BitmapFileHeader) : List Byte :=
  [header.signature.1, header.signature.2] ++ le32 header.file_size ++ le16 header.reserve1
    ++ le16 header.reserve2 ++ le32 header.offset

/-- The `BitmapInfoHeader` object whose memory holds the bytes `raw`. -/
def BitmapInfoHeader.ofBytes (raw : List Byte) : BitmapInfoHeader where
  header_size := rdU32 raw 0
  width := rdI32 raw 4
  height := rdI32 raw 8
  planes := rdU16 raw 12
  bit_per_pixel := rdU16 raw 14
  compress := rdU32 raw 16
  image_size := rdU32 raw 20
  x_resolution := rdI32 raw 24
  y_resolution := rdI32 raw 28
  count_used_colors := rdI32 raw 32
  count_important_colors := rdI32 raw 36

/-- The `BitmapFileHeader` object whose memory holds the bytes `raw`. -/
def BitmapFileHeader.ofBytes (raw : List Byte) : BitmapFileHeader where
  signature := (raw.getD 0 0, raw.getD 1 0)
  file_size := rdU32 raw 2
  reserve1 := rdU16 raw 6
  reserve2 := rdU16 raw 8
  offset := rdU32 raw 10

/-! ## Streams -/

/-- An `std::ifstream` opened on an existing file: the bytes not yet consumed and the
state bits. -/
structure IStream where
  rest : List Byte
  eofbit : Bool := false
  failbit : Bool := false
  badbit : Bool := false
deriving DecidableEq

/-- The stream `ifstream ifs(file, ios::binary)` on a file with the given content. -/
def IStream.open (file : List Byte) : IStream := { rest := file }

def IStream.good (ifs : IStream) : Bool := !ifs.eofbit && !ifs.failbit && !ifs.badbit

def IStream.bad (ifs : IStream) : Bool := ifs.badbit

/-- The call `ifs.read(buf, n)` where `buf` points at memory that currently holds `mem`: the
stream and the new content of that memory. On a stream that is not good nothing is
extracted and `failbit` is set. Otherwise up to `n` bytes are extracted and stored at
the start of the memory; when the file ends before `n` bytes were extracted, `eofbit`
and `failbit` are set (`badbit` is not). -/
def IStream.read (ifs : IStream) (mem : List Byte) (n : Nat) : IStream × List Byte :=
  if ifs.good then
    let got := ifs.rest.take n
    let ifs' := { ifs with rest := ifs.rest.drop n }
    if got.length < n then
      ({ ifs' with eofbit := true, failbit := true }, got ++ mem.drop got.length)
    else
      (ifs', got ++ mem.drop got.length)
  else
    ({ ifs with failbit := true }, mem)

/-- Operator `operator>>(ifstream&, BitmapFileHeader&)`: reads over the memory of the record. -/
def readFileHeader (ifs : IStream) (header : BitmapFileHeader) : IStream × BitmapFileHeader :=
  let r := ifs.read header.toBytes sizeofBitmapFileHeader
  (r.1, BitmapFileHeader.ofBytes r.2)

/-- Operator `operator>>(ifstream&, BitmapInfoHeader&)`: reads over the memory of the record. -/
def readInfoHeader (ifs : IStream) (info : BitmapInfoHeader) : IStream × BitmapInfoHeader :=
  let r := ifs.read info.toBytes sizeofBitmapInfoHeader
  (r.1, BitmapInfoHeader.ofBytes r.2)

/-! ## Row buffers -/

/-- The constructions `std::vector<char> buff(n, 0)` and `std::vector<char> buff(n)` for an `int n`: a
negative `n` converts to a size beyond `max_size()` and the constructor throws. -/
def newBuffer (n : Int) : Option (List Byte) :=
  if n < 0 then none else some (List.replicate n.toNat 0)

/-- The store `buff[i] = v`; an index outside the buffer has no defined behaviour. -/
def setAt (buff : List Byte) (i : Nat) (v : Byte) : Option (List Byte) :=
  if i < buff.length then some (buff.set i v) else none

/-- The load `buff[i]`; an index outside the buffer has no defined behaviour. -/
def getAt (buff : List Byte) (i : Nat) : Option Byte := buff[i]?

/-! ## Encoder -/

/-- The inner loop of `SaveBMP`, `for (int x = 0; x < w; ++x)`, after its first `n`
iterations (`x = 0, ..., n - 1` in this order). -/
def saveLine (line : Nat → Color) : Nat → List Byte → Option (List Byte)
  | 0, buff => some buff
  | x + 1, buff => do
    let buff ← saveLine line x buff
    let buff ← setAt buff (x * 3 + 0) (line x).b
    let buff ← setAt buff (x * 3 + 1) (line x).g
    let buff ← setAt buff (x * 3 + 2) (line x).r
    pure buff

/-- The outer loop of `SaveBMP`, `for (int y = h - 1; y >= 0; --y)`, entered with
`y = n - 1`; `out` is what the stream has received so far. -/
def saveRows (image : Image) (w w_strided : Int) : Nat → List Byte → Option (List Byte)
  | 0, out => some out
  | y + 1, out => do
    let buff ← newBuffer w_strided
    let line := image.GetLine y
    let buff ← saveLine line w.toNat buff
    saveRows image w w_strided y (out ++ buff.take w_strided.toNat)

/-- Function `bool SaveBMP(const Path&, const Image&)`: the content of the file it writes.
The sink never fails, so `out.good()` is true whenever the function returns. -/
def SaveBMP (image : Image) : Option (List Byte) :=
  let header := BitmapFileHeader.ofImage image
  let info := BitmapInfoHeader.ofImage image
  let out : List Byte := []
  let out := out ++ header.toBytes ++ info.toBytes
  let h := image.GetHeight
  let w := image.GetWidth
  let w_strided := GetBMPStride w
  saveRows image w w_strided h.toNat out

/-! ## Decoder -/

/-- Function `bool CheckLoadImageOnBGR24(const BitmapFileHeader&, const
BitmapInfoHeader&)`, test by test; 'B' is 66 and 'M' is 77. -/
def CheckLoadImageOnBGR24 (header : BitmapFileHeader) (info : BitmapInfoHeader) : Bool :=
  if header.signature.1 ≠ byteOf 66 ∧ header.signature.2 ≠ byteOf 77 then false
  else if info.planes ≠ 1 then false
  else if info.bit_per_pixel ≠ 24 then false
  else if info.compress ≠ 0 then false
  else if info.x_resolution ≠ 11811 ∨ info.y_resolution ≠ 11811 then false
  else if info.count_important_colors ≠ 0x1000000 then false
  else true

/-- The inner loop of `LoadBMP`, `for (int x = 0; x < w; ++x)`, after its first `n`
iterations; `line` is the row of the image being filled. -/
def loadLine (buff : List Byte) : Nat → (Nat → Color) → Option (Nat → Color)
  | 0, line => some line
  | x + 1, line => do
    let line ← loadLine buff x line
    let b ← getAt buff (x * 3 + 0)
    let line := fun x' => if x' = x then { line x' with b := b } else line x'
    let g ← getAt buff (x * 3 + 1)
    let line := fun x' => if x' = x then { line x' with g := g } else line x'
    let r ← getAt buff (x * 3 + 2)
    let line := fun x' => if x' = x then { line x' with r := r } else line x'
    pure line

/-- The outer loop of `LoadBMP`, `for (int y = h - 1; y >= 0; --y)`, entered with
`y = n - 1`. -/
def loadRows (w w_strided : Int) : Nat → IStream → Image → Option Image
  | 0, _, result => some result
  | y + 1, ifs, result => do
    let buff ← newBuffer w_strided
    let r := ifs.read buff w_strided.toNat
    let ifs := r.1
    let buff := r.2
    if ifs.bad then
      pure Image.empty
    else do
      let line ← loadLine buff w.toNat (result.GetLine y)
      loadRows w w_strided y ifs (result.setLine y line)

/-- Function `Image LoadBMP(const Path&)` on a file with the given content. -/
def LoadBMP (file : List Byte) : Option Image :=
  let header := BitmapFileHeader.zero
  let info := BitmapInfoHeader.zero
  let ifs := IStream.open file
  let r := readFileHeader ifs header
  let header := r.2
  let r := readInfoHeader r.1 info
  let ifs := r.1
  let info := r.2
  if ifs.bad then
    some Image.empty
  else if !CheckLoadImageOnBGR24 header info then
    some Image.empty
  else
    let w := info.width
    let h := info.height
    let w_strided := GetBMPStride w
    let result := Image.new w h Color.Black
    loadRows w w_strided h.toNat ifs result

/-! ## Vocabulary of the statements -/

/-- The file header record held by the first 14 bytes of a file. -/
def fileHeaderOf (file : List Byte) : BitmapFileHeader :=
  BitmapFileHeader.ofBytes (file.take sizeofBitmapFileHeader)

/-- The info header record held by bytes 14 to 53 of a file. -/
def infoHeaderOf (file : List Byte) : BitmapInfoHeader :=
  BitmapInfoHeader.ofBytes ((file.drop sizeofBitmapFileHeader).take sizeofBitmapInfoHeader)

/-- The 54 bytes that `out << header << info` sends to the stream. -/
def headerBytes (image : Image) : List Byte :=
  (BitmapFileHeader.ofImage image).toBytes ++ (BitmapInfoHeader.ofImage image).toBytes

/-- Every field of the record holds a value of its C++ type. -/
def BitmapInfoHeader.InRange (info : BitmapInfoHeader) : Prop :=
  (0 ≤ info.header_size ∧ info.header_size < 4294967296)
  ∧ (-2147483648 ≤ info.width ∧ info.width < 2147483648)
  ∧ (-2147483648 ≤ info.height ∧ info.height < 2147483648)
  ∧ (0 ≤ info.planes ∧ info.planes < 65536)
  ∧ (0 ≤ info.bit_per_pixel ∧ info.bit_per_pixel < 65536)
  ∧ (0 ≤ info.compress ∧ info.compress < 4294967296)
  ∧ (0 ≤ info.image_size ∧ info.image_size < 4294967296)
  ∧ (-2147483648 ≤ info.x_resolution ∧ info.x_resolution < 2147483648)
  ∧ (-2147483648 ≤ info.y_resolution ∧ info.y_resolution < 2147483648)
  ∧ (-2147483648 ≤ info.count_used_colors ∧ info.count_used_colors < 2147483648)
  ∧ (-2147483648 ≤ info.count_important_colors ∧ info.count_important_colors < 2147483648)

/-- Every field of the record holds a value of its C++ type. -/
def BitmapFileHeader.InRange (header : BitmapFileHeader) : Prop :=
  (0 ≤ header.file_size ∧ header.file_size < 4294967296)
  ∧ (0 ≤ header.reserve1 ∧ header.reserve1 < 65536)
  ∧ (0 ≤ header.reserve2 ∧ header.reserve2 < 65536)
  ∧ (0 ≤ header.offset ∧ header.offset < 4294967296)

/-! ## Concrete inputs -/

/-- An image of one row whose width is the first at which the stride wraps. -/
def wideImage : Image := ⟨715827882, 1, fun _ _ => Color.Black⟩

/-- An image of one column and 2^30 rows: 2^32 bytes of pixel rows. -/
def tallImage : Image := ⟨1, 1073741824, fun _ _ => Color.Black⟩

/-- A 2x2 image with four different colours. -/
def sampleImage : Image :=
  ⟨2, 2, fun y x => ⟨Fin.ofNat (10 * y + x + 1), Fin.ofNat (10 * y + x + 101),
    Fin.ofNat (10 * y + x + 201)⟩⟩

/-- A complete file of one pixel: a supported header with width 1 and height 1, then
one row of stride 4 holding blue 1, green 2, red 3 and one padding byte. -/
def onePixelFile : List Byte :=
  [66, 77, 58, 0, 0, 0, 0, 0, 0, 0, 54, 0, 0, 0,
   40, 0, 0, 0, 1, 0, 0, 0, 1, 0, 0, 0, 1, 0, 24, 0, 0, 0, 0, 0, 4, 0, 0, 0,
   35, 46, 0, 0, 35, 46, 0, 0, 0, 0, 0, 0, 0, 0, 0, 1,
   1, 2, 3, 0]

/-- The file `onePixelFile` with the second signature byte changed from 'M' to 'X'. -/
def oneByteSignatureFile : List Byte :=
  [66, 88, 58, 0, 0, 0, 0, 0, 0, 0, 54, 0, 0, 0,
   40, 0, 0, 0, 1, 0, 0, 0, 1, 0, 0, 0, 1, 0, 24, 0, 0, 0, 0, 0, 4, 0, 0, 0,
   35, 46, 0, 0, 35, 46, 0, 0, 0, 0, 0, 0, 0, 0, 0, 1,
   1, 2, 3, 0]

/-- The header of `onePixelFile` alone: the row of pixel data is missing. -/
def truncatedFile : List Byte :=
  [66, 77, 58, 0, 0, 0, 0, 0, 0, 0, 54, 0, 0, 0,
   40, 0, 0, 0, 1, 0, 0, 0, 1, 0, 0, 0, 1, 0, 24, 0, 0, 0, 0, 0, 4, 0, 0, 0,
   35, 46, 0, 0, 35, 46, 0, 0, 0, 0, 0, 0, 0, 0, 0, 1]

/-- The file `onePixelFile` with 32 in the place of 24 bits per pixel. -/
def wrongDepthFile : List Byte :=
  [66, 77, 58, 0, 0, 0, 0, 0, 0, 0, 54, 0, 0, 0,
   40, 0, 0, 0, 1, 0, 0, 0, 1, 0, 0, 0, 1, 0, 32, 0, 0, 0, 0, 0, 4, 0, 0, 0,
   35, 46, 0, 0, 35, 46, 0, 0, 0, 0, 0, 0, 0, 0, 0, 1,
   1, 2, 3, 0]

/-- A supported header with width 715827882 (bytes 170, 170, 170, 42) and height 1,
and no pixel data. -/
def wideHeaderFile : List Byte :=
  [66, 77, 54, 0, 0, 0, 0, 0, 0, 0, 54, 0, 0, 0,
   40, 0, 0, 0, 170, 170, 170, 42, 1, 0, 0, 0, 1, 0, 24, 0, 0, 0, 0, 0, 0, 0, 0, 0,
   35, 46, 0, 0, 35, 46, 0, 0, 0, 0, 0, 0, 0, 0, 0, 1]

/-- The file `onePixelFile` with 9 in the place of its one padding byte. -/
def paddedOnePixelFile : List Byte :=
  [66, 77, 58, 0, 0, 0, 0, 0, 0, 0, 54, 0, 0, 0,
   40, 0, 0, 0, 1, 0, 0, 0, 1, 0, 0, 0, 1, 0, 24, 0, 0, 0, 0, 0, 4, 0, 0, 0,
   35, 46, 0, 0, 35, 46, 0, 0, 0, 0, 0, 0, 0, 0, 0, 1,
   1, 2, 3, 9]

/-- The file `onePixelFile` with other values in the fields `file_size` (1, 2, 3, 4),
`reserve1` (5, 6), `reserve2` (7, 8), `offset` (100, 0, 0, 0), `header_size`
(12, 0, 0, 0), `image_size` (9, 9, 9, 9) and `count_used_colors` (7, 7, 7, 7). -/
def otherFieldsFile : List Byte :=
  [66, 77, 1, 2, 3, 4, 5, 6, 7, 8, 100, 0, 0, 0,
   12, 0, 0, 0, 1, 0, 0, 0, 1, 0, 0, 0, 1, 0, 24, 0, 0, 0, 0, 0, 9, 9, 9, 9,
   35, 46, 0, 0, 35, 46, 0, 0, 7, 7, 7, 7, 0, 0, 0, 1,
   1, 2, 3, 0]

/-- A file header with signature 'B', 'X'. -/
def oneByteSignatureHeader : BitmapFileHeader := ⟨(66, 88), 58, 0, 0, 54⟩

/-- An info header whose checked fields all have the supported values. -/
def supportedInfoHeader : BitmapInfoHeader := ⟨40, 1, 1, 1, 24, 0, 4, 11811, 11811, 0, 0x1000000⟩

/-! ## Lemmas -/

theorem getElem?_index_congr (l : List Byte) {i j : Nat} (h : i = j) : l[i]? = l[j]? := by
  rw [h]

theorem toUInt32_of_range (n : Int) (h0 : 0 ≤ n) (h1 : n < 4294967296) : toUInt32 n = n := by
  unfold toUInt32; omega

theorem toInt32_of_range (n : Int) (h0 : -2147483648 ≤ n) (h1 : n < 2147483648) :
    toInt32 n = n := by
  unfold toInt32; omega

theorem GetBMPStride_eq (w : Int) (h0 : 0 ≤ w) (h1 : w ≤ 715827881) :
    GetBMPStride w = 4 * ((3 * w + 3) / 4) := by
  unfold GetBMPStride kBMPmultiple kLeftSideOffset kRightSideOffset kBMPOffset
  rw [toUInt32_of_range w h0 (by omega), toUInt32_of_range (w * 3) (by omega) (by omega),
    toUInt32_of_range (w * 3 + 3) (by omega) (by omega),
    toUInt32_of_range _ (by omega) (by omega), toInt32_of_range _ (by omega) (by omega)]
  omega

theorem saveLine_spec (line : Nat → Color) (n : Nat) (buff : List Byte)
    (hlen : n * 3 ≤ buff.length) :
    ∃ res, saveLine line n buff = some res ∧ res.length = buff.length
      ∧ (∀ x, x < n → res[x * 3]? = some (line x).b ∧ res[x * 3 + 1]? = some (line x).g
            ∧ res[x * 3 + 2]? = some (line x).r)
      ∧ (∀ k, n * 3 ≤ k → res[k]? = buff[k]?) := by
  induction n with
  | zero => exact ⟨buff, rfl, rfl, fun x hx => absurd hx (Nat.not_lt_zero x), fun _ _ => rfl⟩
  | succ n ih =>
    obtain ⟨res, hres, hl, hpix, hrest⟩ := ih (by omega)
    have h0 : n * 3 + 0 < res.length := by omega
    have h1 : n * 3 + 1 < (res.set (n * 3 + 0) (line n).b).length := by
      rw [List.length_set]; omega
    have h2 : n * 3 + 2 <
        ((res.set (n * 3 + 0) (line n).b).set (n * 3 + 1) (line n).g).length := by
      rw [List.length_set, List.length_set]; omega
    refine ⟨((res.set (n * 3 + 0) (line n).b).set (n * 3 + 1) (line n).g).set (n * 3 + 2)
      (line n).r, ?_, ?_, ?_, ?_⟩
    · simp only [saveLine, hres, Option.bind_eq_bind, Option.some_bind, setAt, h0, h1, h2,
        if_true, Option.pure_def]
    · simp only [List.length_set, hl]
    · intro x hx
      simp only [List.getElem?_set, List.length_set]
      rcases Nat.lt_succ_iff_lt_or_eq.mp hx with hlt | heq
      · obtain ⟨pb, pg, pr⟩ := hpix x hlt
        refine ⟨?_, ?_, ?_⟩
        · rw [if_neg (by omega), if_neg (by omega), if_neg (by omega)]; exact pb
        · rw [if_neg (by omega), if_neg (by omega), if_neg (by omega)]; exact pg
        · rw [if_neg (by omega), if_neg (by omega), if_neg (by omega)]; exact pr
      · subst heq
        refine ⟨?_, ?_, ?_⟩
        · rw [if_neg (by omega), if_neg (by omega), if_pos (by omega), if_pos (by omega)]
        · rw [if_neg (by omega), if_pos (by omega), if_pos (by omega)]
        · rw [if_pos (by omega), if_pos (by omega)]
    · intro k hk
      simp only [List.getElem?_set, List.length_set]
      rw [if_neg (by omega), if_neg (by omega), if_neg (by omega)]
      exact hrest k (by omega)

theorem newBuffer_of_nonneg (s : Int) (hs : 0 ≤ s) :
    newBuffer s = some (List.replicate s.toNat 0) := by
  unfold newBuffer
  rw [if_neg (by omega)]

theorem saveRows_spec (image : Image) (w s : Int) (hs : 0 ≤ s)
    (hw : w.toNat * 3 ≤ s.toNat) (n : Nat) :
    ∀ out : List Byte, ∃ res, saveRows image w s n out = some res
      ∧ res.length = out.length + n * s.toNat
      ∧ (∀ i, i < out.length → res[i]? = out[i]?)
      ∧ (∀ y j, y + j + 1 = n →
          (∀ x, x < w.toNat →
            res[out.length + j * s.toNat + x * 3]? = some (image.pixels y x).b
            ∧ res[out.length + j * s.toNat + x * 3 + 1]? = some (image.pixels y x).g
            ∧ res[out.length + j * s.toNat + x * 3 + 2]? = some (image.pixels y x).r)
          ∧ (∀ k, w.toNat * 3 ≤ k → k < s.toNat →
            res[out.length + j * s.toNat + k]? = some 0)) := by
  induction n with
  | zero =>
    intro out
    exact ⟨out, rfl, by simp, fun _ _ => rfl, fun y j hyj => by omega⟩
  | succ n ih =>
    intro out
    obtain ⟨row, hrow, hrl, hpix, hpad⟩ :=
      saveLine_spec (image.GetLine n) w.toNat (List.replicate s.toNat 0)
        (by rw [List.length_replicate]; exact hw)
    rw [List.length_replicate] at hrl
    have htake : row.take s.toNat = row := List.take_of_length_le (by omega)
    obtain ⟨res, hres, hlen, hpre, hrows⟩ := ih (out ++ row)
    rw [List.length_append, hrl] at hlen hrows hpre
    refine ⟨res, ?_, ?_, ?_, ?_⟩
    · simp only [saveRows, newBuffer_of_nonneg s hs, Option.bind_eq_bind, Option.some_bind,
        hrow, htake, hres]
    · rw [hlen, Nat.succ_mul]; omega
    · intro i hi
      rw [hpre i (by omega), List.getElem?_append_left hi]
    · intro y j hyj
      rcases Nat.eq_zero_or_pos j with hj0 | hjpos
      · subst hj0
        have hy : y = n := by omega
        subst hy
        have key : ∀ k, k < s.toNat → ∀ i, i = out.length + 0 * s.toNat + k →
            res[i]? = row[k]? := by
          intro k hk i hi
          subst hi
          rw [Nat.zero_mul, Nat.add_zero, hpre _ (by omega),
            List.getElem?_append_right (by omega), Nat.add_sub_cancel_left]
        refine ⟨fun x hx => ?_, fun k hk1 hk2 => ?_⟩
        · obtain ⟨pb, pg, pr⟩ := hpix x hx
          exact ⟨(key (x * 3) (by omega) _ (by omega)).trans pb,
            (key (x * 3 + 1) (by omega) _ (by omega)).trans pg,
            (key (x * 3 + 2) (by omega) _ (by omega)).trans pr⟩
        · rw [key k hk2 _ rfl, hpad k hk1, List.getElem?_replicate, if_pos hk2]
      · obtain ⟨j', rfl⟩ : ∃ j', j = j' + 1 := ⟨j - 1, by omega⟩
        obtain ⟨hp, hz⟩ := hrows y j' (by omega)
        have hidx : out.length + (j' + 1) * s.toNat = out.length + s.toNat + j' * s.toNat := by
          rw [Nat.succ_mul]; omega
        rw [hidx]
        exact ⟨hp, hz⟩

theorem byteOf_val (n : Int) : ((byteOf n).val : Int) = n % 256 := by
  unfold byteOf
  simp only []
  omega

theorem le16_sum (v : Int) (h0 : 0 ≤ v) (h1 : v < 65536) :
    ((byteOf v).val : Int) + 256 * ((byteOf (v / 256)).val : Int) = v := by
  simp only [byteOf_val]
  omega

theorem le32_sum (v : Int) :
    ((byteOf v).val : Int) + 256 * ((byteOf (v / 256)).val : Int)
      + 65536 * ((byteOf (v / 65536)).val : Int)
      + 16777216 * ((byteOf (v / 16777216)).val : Int) = v % 4294967296 := by
  simp only [byteOf_val]
  omega

theorem infoHeader_ofBytes_toBytes (info : BitmapInfoHeader) (h : info.InRange) :
    BitmapInfoHeader.ofBytes info.toBytes = info := by
  obtain ⟨h1, h2, h3, h4, h5, h6, h7, h8, h9, h10, h11⟩ := h
  cases info
  simp only [BitmapInfoHeader.ofBytes, BitmapInfoHeader.toBytes, le32, le16, List.cons_append,
    List.nil_append,  BitmapInfoHeader.mk.injEq, rdU32, rdI32, rdU16, byteAt] at *
  simp only [List.getD_cons_succ, List.getD_cons_zero, le32_sum, toInt32]
  refine ⟨?_, ?_, ?_, ?_, ?_, ?_, ?_, ?_, ?_, ?_, ?_⟩
  · omega
  · omega
  · omega
  · exact le16_sum _ h4.1 h4.2
  · exact le16_sum _ h5.1 h5.2
  · omega
  · omega
  · omega
  · omega
  · omega
  · omega

theorem loadLine_spec (buff : List Byte) (n : Nat) (line : Nat → Color)
    (hlen : n * 3 ≤ buff.length) :
    ∃ res, loadLine buff n line = some res
      ∧ (∀ x, x < n → buff[x * 3]? = some (res x).b ∧ buff[x * 3 + 1]? = some (res x).g
            ∧ buff[x * 3 + 2]? = some (res x).r)
      ∧ (∀ x, n ≤ x → res x = line x) := by
  induction n with
  | zero => exact ⟨line, rfl, fun x hx => absurd hx (Nat.not_lt_zero x), fun _ _ => rfl⟩
  | succ n ih =>
    obtain ⟨res, hres, hpix, hrest⟩ := ih (by omega)
    have h0 : n * 3 + 0 < buff.length := by omega
    have h1 : n * 3 + 1 < buff.length := by omega
    have h2 : n * 3 + 2 < buff.length := by omega
    have hcalc : loadLine buff (n + 1) line = some (fun x' =>
        if x' = n then ⟨buff[n * 3 + 2], buff[n * 3 + 1], buff[n * 3 + 0]⟩ else res x') := by
      simp only [loadLine, hres, Option.bind_eq_bind, Option.some_bind, getAt,
        List.getElem?_eq_getElem h0, List.getElem?_eq_getElem h1, List.getElem?_eq_getElem h2,
        Option.pure_def]
      congr 1
      funext x'
      by_cases hx : x' = n
      · simp only [if_pos hx]
      · simp only [if_neg hx]
    refine ⟨_, hcalc, ?_, ?_⟩
    · intro x hx
      rcases Nat.lt_succ_iff_lt_or_eq.mp hx with hlt | heq
      · have hne : x ≠ n := by omega
        simp only [if_neg hne]
        exact hpix x hlt
      · subst heq
        simp only [if_true]
        exact ⟨List.getElem?_eq_getElem h0, List.getElem?_eq_getElem h1,
          List.getElem?_eq_getElem h2⟩
    · intro x hx
      have hne : x ≠ n := by omega
      simp only [if_neg hne]
      exact hrest x (by omega)

theorem read_full (rest mem : List Byte) (n : Nat) (hn : n ≤ rest.length)
    (hm : mem.length ≤ n) :
    IStream.read { rest := rest } mem n = ({ rest := rest.drop n }, rest.take n) := by
  have hl : (rest.take n).length = n := by rw [List.length_take]; omega
  simp only [IStream.read, IStream.good, Bool.not_false, Bool.and_self, if_true, hl,
    Nat.lt_irrefl, if_false, List.drop_of_length_le hm, List.append_nil]

theorem loadRows_spec (w s : Int) (hs : 0 ≤ s) (hw : w.toNat * 3 ≤ s.toNat) (n : Nat) :
    ∀ (rest : List Byte) (img : Image), n * s.toNat ≤ rest.length →
      ∃ res, loadRows w s n { rest := rest } img = some res
        ∧ res.width = img.width ∧ res.height = img.height
        ∧ (∀ y j, y + j + 1 = n → ∀ x, x < w.toNat →
            rest[j * s.toNat + x * 3]? = some (res.pixels y x).b
            ∧ rest[j * s.toNat + x * 3 + 1]? = some (res.pixels y x).g
            ∧ rest[j * s.toNat + x * 3 + 2]? = some (res.pixels y x).r)
        ∧ (∀ y, n ≤ y → res.pixels y = img.pixels y) := by
  induction n with
  | zero =>
    intro rest img _
    exact ⟨img, rfl, rfl, rfl, fun y j hyj => by omega, fun _ _ => rfl⟩
  | succ n ih =>
    intro rest img hlen
    rw [Nat.succ_mul] at hlen
    have hread := read_full rest (List.replicate s.toNat 0) s.toNat (by omega)
      (by rw [List.length_replicate])
    obtain ⟨line, hline, hpix, hkeep⟩ := loadLine_spec (rest.take s.toNat) w.toNat
      (img.GetLine n) (by rw [List.length_take]; omega)
    obtain ⟨res, hres, hwd, hht, hrows, hother⟩ := ih (rest.drop s.toNat)
      (img.setLine n line) (by rw [List.length_drop]; omega)
    refine ⟨res, ?_, ?_, ?_, ?_, ?_⟩
    · simp only [loadRows, newBuffer_of_nonneg s hs, Option.bind_eq_bind, Option.some_bind,
        hread, IStream.bad, Bool.false_eq_true, if_false, hline, hres]
    · exact hwd
    · exact hht
    · intro y j hyj x hx
      rcases Nat.eq_zero_or_pos j with hj0 | hjpos
      · subst hj0
        have hy : y = n := by omega
        subst hy
        have hrow : res.pixels y = line := by
          rw [hother y (Nat.le_refl y)]
          simp only [Image.setLine, if_true]
        obtain ⟨pb, pg, pr⟩ := hpix x hx
        rw [List.getElem?_take_of_lt (by omega)] at pb pg pr
        rw [hrow, Nat.zero_mul, Nat.zero_add]
        exact ⟨pb, pg, pr⟩
      · obtain ⟨j', rfl⟩ : ∃ j', j = j' + 1 := ⟨j - 1, by omega⟩
        obtain ⟨pb, pg, pr⟩ := hrows y j' (by omega) x hx
        rw [List.getElem?_drop] at pb pg pr
        have e0 : (j' + 1) * s.toNat + x * 3 = s.toNat + (j' * s.toNat + x * 3) := by
          rw [Nat.succ_mul]; omega
        have e1 : (j' + 1) * s.toNat + x * 3 + 1 = s.toNat + (j' * s.toNat + x * 3 + 1) := by
          rw [Nat.succ_mul]; omega
        have e2 : (j' + 1) * s.toNat + x * 3 + 2 = s.toNat + (j' * s.toNat + x * 3 + 2) := by
          rw [Nat.succ_mul]; omega
        rw [e2, e1, e0]
        exact ⟨pb, pg, pr⟩
    · intro y hy
      rw [hother y (by omega)]
      have hne : y ≠ n := by omega
      simp only [Image.setLine, if_neg hne]

theorem LoadBMP_of_header (file : List Byte) (hlen : 54 ≤ file.length) :
    LoadBMP file =
      if CheckLoadImageOnBGR24 (fileHeaderOf file) (infoHeaderOf file) = true then
        loadRows (infoHeaderOf file).width (GetBMPStride (infoHeaderOf file).width)
          (infoHeaderOf file).height.toNat { rest := file.drop 54 }
          (Image.new (infoHeaderOf file).width (infoHeaderOf file).height Color.Black)
      else some Image.empty := by
  have h1 := read_full file BitmapFileHeader.zero.toBytes sizeofBitmapFileHeader
    (by simp only [sizeofBitmapFileHeader]; omega) (by decide)
  have h2 := read_full (file.drop sizeofBitmapFileHeader) BitmapInfoHeader.zero.toBytes
    sizeofBitmapInfoHeader
    (by simp only [sizeofBitmapFileHeader, sizeofBitmapInfoHeader, List.length_drop]; omega)
    (by decide)
  have h3 : (file.drop sizeofBitmapFileHeader).drop sizeofBitmapInfoHeader = file.drop 54 := by
    rw [List.drop_drop]; rfl
  unfold LoadBMP
  simp only [readFileHeader, readInfoHeader, IStream.open, h1, h2, h3, IStream.bad,
    Bool.false_eq_true, if_false, fileHeaderOf, infoHeaderOf]
  by_cases hc : CheckLoadImageOnBGR24
      (BitmapFileHeader.ofBytes (file.take sizeofBitmapFileHeader))
      (BitmapInfoHeader.ofBytes ((file.drop sizeofBitmapFileHeader).take sizeofBitmapInfoHeader))
      = true
  · simp only [hc, Bool.not_true, Bool.false_eq_true, if_false, if_true]
  · simp only [Bool.not_eq_true] at hc
    simp only [hc, Bool.not_false, if_true, Bool.false_eq_true, if_false]

theorem fileHeader_ofBytes_toBytes (header : BitmapFileHeader) (h : header.InRange) :
    BitmapFileHeader.ofBytes header.toBytes = header := by
  obtain ⟨h1, h2, h3, h4⟩ := h
  cases header
  simp only [BitmapFileHeader.ofBytes, BitmapFileHeader.toBytes, le32, le16, List.cons_append,
    List.nil_append, BitmapFileHeader.mk.injEq, rdU32, rdU16, byteAt] at *
  simp only [List.getD_cons_succ, List.getD_cons_zero, le32_sum]
  refine ⟨trivial, ?_, ?_, ?_, ?_⟩
  · omega
  · exact le16_sum _ h2.1 h2.2
  · exact le16_sum _ h3.1 h3.2
  · omega

theorem fileHeader_ofImage_inRange (image : Image) :
    (BitmapFileHeader.ofImage image).InRange := by
  simp only [BitmapFileHeader.InRange, BitmapFileHeader.ofImage, toUInt32, toUInt16]
  omega

theorem infoHeader_ofImage_inRange (image : Image) :
    (BitmapInfoHeader.ofImage image).InRange := by
  simp only [BitmapInfoHeader.InRange, BitmapInfoHeader.ofImage, toUInt32, toUInt16, toInt32]
  omega

theorem headerBytes_length (image : Image) : (headerBytes image).length = 54 := rfl

theorem fileHeaderOf_append (image : Image) (rows : List Byte) :
    fileHeaderOf (headerBytes image ++ rows) = BitmapFileHeader.ofImage image := by
  have h : (headerBytes image ++ rows).take sizeofBitmapFileHeader
      = (BitmapFileHeader.ofImage image).toBytes := by
    unfold headerBytes
    rw [List.append_assoc]
    exact List.take_left' rfl
  rw [fileHeaderOf, h, fileHeader_ofBytes_toBytes _ (fileHeader_ofImage_inRange image)]

theorem infoHeaderOf_append (image : Image) (rows : List Byte) :
    infoHeaderOf (headerBytes image ++ rows) = BitmapInfoHeader.ofImage image := by
  have h : ((headerBytes image ++ rows).drop sizeofBitmapFileHeader).take sizeofBitmapInfoHeader
      = (BitmapInfoHeader.ofImage image).toBytes := by
    unfold headerBytes
    rw [List.append_assoc]
    have hd : ((BitmapFileHeader.ofImage image).toBytes
        ++ ((BitmapInfoHeader.ofImage image).toBytes ++ rows)).drop sizeofBitmapFileHeader
        = (BitmapInfoHeader.ofImage image).toBytes ++ rows := List.drop_left' rfl
    rw [hd]
    exact List.take_left' rfl
  rw [infoHeaderOf, h, infoHeader_ofBytes_toBytes _ (infoHeader_ofImage_inRange image)]

theorem SaveBMP_spec (image : Image) (hw0 : 0 ≤ image.width) (hw1 : image.width ≤ 715827881) :
    ∃ rows, SaveBMP image = some (headerBytes image ++ rows)
      ∧ rows.length = image.height.toNat * (GetBMPStride image.width).toNat
      ∧ (∀ y j, y + j + 1 = image.height.toNat →
          (∀ x, x < image.width.toNat →
            rows[j * (GetBMPStride image.width).toNat + x * 3]? = some (image.pixels y x).b
            ∧ rows[j * (GetBMPStride image.width).toNat + x * 3 + 1]?
                = some (image.pixels y x).g
            ∧ rows[j * (GetBMPStride image.width).toNat + x * 3 + 2]?
                = some (image.pixels y x).r)
          ∧ (∀ k, image.width.toNat * 3 ≤ k → k < (GetBMPStride image.width).toNat →
            rows[j * (GetBMPStride image.width).toNat + k]? = some 0)) := by
  have hs := GetBMPStride_eq image.width hw0 hw1
  obtain ⟨res, hres, hlen, hpre, hrows⟩ := saveRows_spec image image.width
    (GetBMPStride image.width) (by omega) (by omega) image.height.toNat (headerBytes image)
  rw [headerBytes_length] at hlen hrows hpre
  have hsplit : res = headerBytes image ++ res.drop 54 := by
    have ht : res.take 54 = headerBytes image := by
      apply List.ext_getElem?
      intro i
      by_cases hi : i < 54
      · rw [List.getElem?_take_of_lt hi, hpre i hi]
      · rw [List.getElem?_eq_none (by rw [List.length_take]; omega),
          List.getElem?_eq_none (by rw [headerBytes_length]; omega)]
    rw [← ht, List.take_append_drop]
  refine ⟨res.drop 54, ?_, ?_, ?_⟩
  · rw [← hsplit]
    simpa only [SaveBMP, Image.GetWidth, Image.GetHeight, headerBytes, List.nil_append]
      using hres
  · rw [List.length_drop, hlen]; omega
  · intro y j hyj
    obtain ⟨hp, hz⟩ := hrows y j hyj
    refine ⟨fun x hx => ?_, fun k hk1 hk2 => ?_⟩
    · obtain ⟨pb, pg, pr⟩ := hp x hx
      rw [List.getElem?_drop, List.getElem?_drop, List.getElem?_drop]
      refine ⟨?_, ?_, ?_⟩
      · rw [← pb]; exact getElem?_index_congr _ (by omega)
      · rw [← pg]; exact getElem?_index_congr _ (by omega)
      · rw [← pr]; exact getElem?_index_congr _ (by omega)
    · rw [List.getElem?_drop, ← hz k hk1 hk2]; exact getElem?_index_congr _ (by omega)

theorem CheckLoadImageOnBGR24_eq_true_iff (header : BitmapFileHeader)
    (info : BitmapInfoHeader) :
    CheckLoadImageOnBGR24 header info = true ↔
      (header.signature.1 = byteOf 66 ∨ header.signature.2 = byteOf 77)
      ∧ info.planes = 1 ∧ info.bit_per_pixel = 24 ∧ info.compress = 0
      ∧ info.x_resolution = 11811 ∧ info.y_resolution = 11811
      ∧ info.count_important_colors = 0x1000000 := by
  unfold CheckLoadImageOnBGR24
  split_ifs <;> simp_all <;> tauto

theorem byteAt_range (b : List Byte) (i : Nat) : 0 ≤ byteAt b i ∧ byteAt b i < 256 := by
  unfold byteAt
  have := (b.getD i 0).isLt
  omega

theorem rdU32_range (b : List Byte) (off : Nat) :
    0 ≤ rdU32 b off ∧ rdU32 b off < 4294967296 := by
  unfold rdU32
  have h0 := byteAt_range b off
  have h1 := byteAt_range b (off + 1)
  have h2 := byteAt_range b (off + 2)
  have h3 := byteAt_range b (off + 3)
  omega

theorem byteAt_take (l : List Byte) (n i : Nat) (h : i < n) :
    byteAt (l.take n) i = byteAt l i := by
  unfold byteAt
  rw [List.getD_eq_getElem?_getD, List.getD_eq_getElem?_getD, List.getElem?_take_of_lt h]

theorem byteAt_drop (l : List Byte) (n i : Nat) :
    byteAt (l.drop n) i = byteAt l (n + i) := by
  unfold byteAt
  rw [List.getD_eq_getElem?_getD, List.getD_eq_getElem?_getD, List.getElem?_drop]

theorem fileHeaderOf_fields (file : List Byte) :
    fileHeaderOf file
      = ⟨(file.getD 0 0, file.getD 1 0), rdU32 file 2, rdU16 file 6, rdU16 file 8,
          rdU32 file 10⟩ := by
  simp only [fileHeaderOf, BitmapFileHeader.ofBytes, rdU32, rdU16, sizeofBitmapFileHeader,
    byteAt_take _ 14 _ (by omega : 2 < 14), byteAt_take _ 14 _ (by omega : 2 + 1 < 14),
    byteAt_take _ 14 _ (by omega : 2 + 2 < 14), byteAt_take _ 14 _ (by omega : 2 + 3 < 14),
    byteAt_take _ 14 _ (by omega : 6 < 14), byteAt_take _ 14 _ (by omega : 6 + 1 < 14),
    byteAt_take _ 14 _ (by omega : 8 < 14), byteAt_take _ 14 _ (by omega : 8 + 1 < 14),
    byteAt_take _ 14 _ (by omega : 10 < 14), byteAt_take _ 14 _ (by omega : 10 + 1 < 14),
    byteAt_take _ 14 _ (by omega : 10 + 2 < 14), byteAt_take _ 14 _ (by omega : 10 + 3 < 14)]
  congr 2
  · rw [List.getD_eq_getElem?_getD, List.getD_eq_getElem?_getD,
      List.getElem?_take_of_lt (by omega)]
  · rw [List.getD_eq_getElem?_getD, List.getD_eq_getElem?_getD,
      List.getElem?_take_of_lt (by omega)]

theorem rdU32_window (l : List Byte) (a n off : Nat) (h : off + 3 < n) :
    rdU32 ((l.drop a).take n) off = rdU32 l (a + off) := by
  unfold rdU32
  rw [byteAt_take _ n _ (by omega), byteAt_take _ n _ (by omega),
    byteAt_take _ n _ (by omega), byteAt_take _ n _ (by omega),
    byteAt_drop, byteAt_drop, byteAt_drop, byteAt_drop]
  rfl

theorem rdU16_window (l : List Byte) (a n off : Nat) (h : off + 1 < n) :
    rdU16 ((l.drop a).take n) off = rdU16 l (a + off) := by
  unfold rdU16
  rw [byteAt_take _ n _ (by omega), byteAt_take _ n _ (by omega), byteAt_drop, byteAt_drop]
  rfl

theorem rdI32_window (l : List Byte) (a n off : Nat) (h : off + 3 < n) :
    rdI32 ((l.drop a).take n) off = rdI32 l (a + off) := by
  unfold rdI32
  rw [rdU32_window l a n off h]

theorem infoHeaderOf_fields (file : List Byte) :
    infoHeaderOf file
      = ⟨rdU32 file 14, rdI32 file 18, rdI32 file 22, rdU16 file 26, rdU16 file 28,
          rdU32 file 30, rdU32 file 34, rdI32 file 38, rdI32 file 42, rdI32 file 46,
          rdI32 file 50⟩ := by
  simp only [infoHeaderOf, BitmapInfoHeader.ofBytes, sizeofBitmapFileHeader,
    sizeofBitmapInfoHeader,
    rdU32_window file 14 40 0 (by omega), rdI32_window file 14 40 4 (by omega),
    rdI32_window file 14 40 8 (by omega), rdU16_window file 14 40 12 (by omega),
    rdU16_window file 14 40 14 (by omega), rdU32_window file 14 40 16 (by omega),
    rdU32_window file 14 40 20 (by omega), rdI32_window file 14 40 24 (by omega),
    rdI32_window file 14 40 28 (by omega), rdI32_window file 14 40 32 (by omega),
    rdI32_window file 14 40 36 (by omega)]

theorem SaveBMP_header_fields (image : Image) (rows : List Byte) :
    (headerBytes image ++ rows)[0]? = some 66 ∧ (headerBytes image ++ rows)[1]? = some 77
      ∧ rdU32 (headerBytes image ++ rows) 2 = (BitmapFileHeader.ofImage image).file_size
      ∧ rdU16 (headerBytes image ++ rows) 6 = 0
      ∧ rdU16 (headerBytes image ++ rows) 8 = 0
      ∧ rdU32 (headerBytes image ++ rows) 10 = 54
      ∧ rdU32 (headerBytes image ++ rows) 14 = 40
      ∧ rdI32 (headerBytes image ++ rows) 18 = toInt32 image.width
      ∧ rdI32 (headerBytes image ++ rows) 22 = toInt32 image.height
      ∧ rdU16 (headerBytes image ++ rows) 26 = 1
      ∧ rdU16 (headerBytes image ++ rows) 28 = 24
      ∧ rdU32 (headerBytes image ++ rows) 30 = 0
      ∧ rdU32 (headerBytes image ++ rows) 34 = (BitmapInfoHeader.ofImage image).image_size
      ∧ rdI32 (headerBytes image ++ rows) 38 = 11811
      ∧ rdI32 (headerBytes image ++ rows) 42 = 11811
      ∧ rdI32 (headerBytes image ++ rows) 46 = 0
      ∧ rdI32 (headerBytes image ++ rows) 50 = 0x1000000 := by
  have hf := fileHeaderOf_fields (headerBytes image ++ rows)
  have hi := infoHeaderOf_fields (headerBytes image ++ rows)
  rw [fileHeaderOf_append] at hf
  rw [infoHeaderOf_append] at hi
  simp only [BitmapFileHeader.ofImage, BitmapFileHeader.mk.injEq] at hf
  simp only [BitmapInfoHeader.ofImage, BitmapInfoHeader.mk.injEq, Image.GetWidth,
    Image.GetHeight] at hi
  obtain ⟨f1, f2, f3, f4, f5⟩ := hf
  obtain ⟨i1, i2, i3, i4, i5, i6, i7, i8, i9, i10, i11⟩ := hi
  refine ⟨rfl, rfl, ?_, ?_, ?_, ?_, ?_, ?_, ?_, ?_, ?_, ?_, ?_, ?_, ?_, ?_, ?_⟩
  · rw [← f2]; rfl
  · rw [← f3]; rfl
  · rw [← f4]; rfl
  · rw [← f5]; rfl
  · rw [← i1]; rfl
  · rw [← i2]
  · rw [← i3]
  · rw [← i4]; rfl
  · rw [← i5]; rfl
  · rw [← i6]; rfl
  · rw [← i7]; rfl
  · rw [← i8]; rfl
  · rw [← i9]; rfl
  · rw [← i10]; rfl
  · rw [← i11]; rfl

theorem SaveBMP_tallImage :
    ∃ rows, SaveBMP tallImage = some (headerBytes tallImage ++ rows)
      ∧ rows.length = 4294967296 := by
  obtain ⟨rows, hsave, hlen, -⟩ := SaveBMP_spec tallImage (by decide) (by decide)
  refine ⟨rows, hsave, ?_⟩
  rw [hlen]
  decide

theorem CheckLoadImageOnBGR24_ofImage (image : Image) :
    CheckLoadImageOnBGR24 (BitmapFileHeader.ofImage image) (BitmapInfoHeader.ofImage image)
      = true := by
  rw [CheckLoadImageOnBGR24_eq_true_iff]
  refine ⟨Or.inl rfl, ?_, ?_, ?_, ?_, ?_, ?_⟩
  · show toUInt16 1 = 1
    decide
  · show toUInt16 24 = 24
    decide
  · show toUInt32 0 = 0
    decide
  · show toInt32 11811 = 11811
    decide
  · show toInt32 11811 = 11811
    decide
  · show toInt32 0x1000000 = 0x1000000
    decide

theorem LoadBMP_spec (file : List Byte)
    (hvalid : CheckLoadImageOnBGR24 (fileHeaderOf file) (infoHeaderOf file) = true)
    (hw0 : 0 ≤ (infoHeaderOf file).width) (hw1 : (infoHeaderOf file).width ≤ 715827881)
    (hh0 : 0 ≤ (infoHeaderOf file).height)
    (hdata : 54 + GetBMPStride (infoHeaderOf file).width * (infoHeaderOf file).height
      ≤ file.length) :
    ∃ img, LoadBMP file = some img
      ∧ img.width = (infoHeaderOf file).width ∧ img.height = (infoHeaderOf file).height
      ∧ ∀ y j, y + j + 1 = (infoHeaderOf file).height.toNat →
          ∀ x, x < (infoHeaderOf file).width.toNat →
            file[54 + (j * (GetBMPStride (infoHeaderOf file).width).toNat + x * 3)]?
              = some (img.pixels y x).b
            ∧ file[54 + (j * (GetBMPStride (infoHeaderOf file).width).toNat + x * 3 + 1)]?
              = some (img.pixels y x).g
            ∧ file[54 + (j * (GetBMPStride (infoHeaderOf file).width).toNat + x * 3 + 2)]?
              = some (img.pixels y x).r := by
  have hs := GetBMPStride_eq (infoHeaderOf file).width hw0 hw1
  have hs0 : 0 ≤ GetBMPStride (infoHeaderOf file).width := by omega
  have hprod : 0 ≤ GetBMPStride (infoHeaderOf file).width * (infoHeaderOf file).height :=
    Int.mul_nonneg hs0 hh0
  have hlen : 54 ≤ file.length := by omega
  have hnat : (infoHeaderOf file).height.toNat * (GetBMPStride (infoHeaderOf file).width).toNat
      ≤ (file.drop 54).length := by
    rw [List.length_drop]
    have hc : (((infoHeaderOf file).height.toNat
        * (GetBMPStride (infoHeaderOf file).width).toNat : Nat) : Int)
        = GetBMPStride (infoHeaderOf file).width * (infoHeaderOf file).height := by
      push_cast
      rw [Int.toNat_of_nonneg hh0, Int.toNat_of_nonneg hs0]
      ring
    omega
  obtain ⟨res, hres, hwd, hht, hrows, -⟩ := loadRows_spec (infoHeaderOf file).width
    (GetBMPStride (infoHeaderOf file).width) hs0 (by omega) (infoHeaderOf file).height.toNat
    (file.drop 54) (Image.new (infoHeaderOf file).width (infoHeaderOf file).height Color.Black)
    hnat
  refine ⟨res, ?_, hwd, hht, ?_⟩
  · rw [LoadBMP_of_header file hlen, if_pos hvalid, hres]
  · intro y j hyj x hx
    obtain ⟨pb, pg, pr⟩ := hrows y j hyj x hx
    rw [List.getElem?_drop] at pb pg pr
    exact ⟨pb, pg, pr⟩

theorem GetBMPStride_lt_of_large (w : Int) (h0 : 715827881 < w) (h1 : w < 2147483648) :
    GetBMPStride w < 3 * w := by
  unfold GetBMPStride kBMPmultiple kLeftSideOffset kRightSideOffset kBMPOffset
  rw [toUInt32_of_range w (by omega) (by omega)]
  by_cases hc : w ≤ 1431655764
  · rw [toUInt32_of_range (w * 3) (by omega) (by omega),
      toUInt32_of_range (w * 3 + 3) (by omega) (by omega),
      toUInt32_of_range _ (by omega) (by omega)]
    unfold toInt32
    omega
  · by_cases hd : w = 1431655765
    · subst hd
      decide
    · have e1 : toUInt32 (w * 3) = w * 3 - 4294967296 := by unfold toUInt32; omega
      rw [e1]
      rw [toUInt32_of_range (w * 3 - 4294967296 + 3) (by omega) (by omega),
        toUInt32_of_range _ (by omega) (by omega)]
      unfold toInt32
      omega

theorem read_short (rest mem : List Byte) (n : Nat) (hn : rest.length < n) :
    IStream.read { rest := rest } mem n
      = ({ rest := [], eofbit := true, failbit := true }, rest ++ mem.drop rest.length) := by
  have ht : rest.take n = rest := List.take_of_length_le (by omega)
  have hd : rest.drop n = [] := List.drop_of_length_le (by omega)
  simp only [IStream.read, IStream.good, Bool.not_false, Bool.and_self, if_true, ht, hd, hn]

theorem read_after_failure (rest mem : List Byte) (e b : Bool) (n : Nat) :
    IStream.read { rest := rest, eofbit := e, failbit := true, badbit := b } mem n
      = ({ rest := rest, eofbit := e, failbit := true, badbit := b }, mem) := by
  simp only [IStream.read, IStream.good, Bool.not_true, Bool.and_false, Bool.false_and,
    Bool.false_eq_true, if_false]

theorem byteAt_after_short_read (got mem : List Byte) (i : Nat) (h : got.length ≤ i) :
    byteAt (got ++ mem.drop got.length) i = byteAt mem i := by
  unfold byteAt
  rw [List.getD_eq_getElem?_getD, List.getD_eq_getElem?_getD, List.getElem?_append_right h,
    List.getElem?_drop, Nat.add_sub_cancel' h]

theorem CheckLoadImageOnBGR24_of_last_byte_zero (header : BitmapFileHeader)
    (raw : List Byte) (h : byteAt raw 39 = 0) :
    CheckLoadImageOnBGR24 header (BitmapInfoHeader.ofBytes raw) = false := by
  rw [← Bool.not_eq_true, CheckLoadImageOnBGR24_eq_true_iff]
  rintro ⟨-, -, -, -, -, -, hc⟩
  simp only [BitmapInfoHeader.ofBytes, rdI32, rdU32, toInt32] at hc
  have h36 := byteAt_range raw 36
  have h37 := byteAt_range raw (36 + 1)
  have h38 := byteAt_range raw (36 + 2)
  have h39 : byteAt raw (36 + 3) = 0 := h
  rw [h39] at hc
  omega

theorem LoadBMP_of_short_file (file : List Byte) (hlen : file.length < 54) :
    LoadBMP file = some Image.empty := by
  have hcheck : ∀ (ifs : IStream) (header : BitmapFileHeader) (raw : List Byte),
      ifs.badbit = false → byteAt raw 39 = 0 →
      (if ifs.bad = true then some Image.empty
        else if (!CheckLoadImageOnBGR24 header (BitmapInfoHeader.ofBytes raw)) = true then
          some Image.empty
        else loadRows (BitmapInfoHeader.ofBytes raw).width
          (GetBMPStride (BitmapInfoHeader.ofBytes raw).width)
          (BitmapInfoHeader.ofBytes raw).height.toNat ifs
          (Image.new (BitmapInfoHeader.ofBytes raw).width (BitmapInfoHeader.ofBytes raw).height
            Color.Black)) = some Image.empty := by
    intro ifs header raw hbad hraw
    rw [IStream.bad, hbad, CheckLoadImageOnBGR24_of_last_byte_zero header raw hraw]
    rfl
  by_cases h14 : file.length < 14
  · have h1 := read_short file BitmapFileHeader.zero.toBytes sizeofBitmapFileHeader
      (by simp only [sizeofBitmapFileHeader]; omega)
    have h2 := read_after_failure [] BitmapInfoHeader.zero.toBytes true false
      sizeofBitmapInfoHeader
    unfold LoadBMP
    simp only [readFileHeader, readInfoHeader, IStream.open, h1, h2]
    exact hcheck _ _ _ rfl (by decide)
  · have h1 := read_full file BitmapFileHeader.zero.toBytes sizeofBitmapFileHeader
      (by simp only [sizeofBitmapFileHeader]; omega) (by decide)
    have h2 := read_short (file.drop sizeofBitmapFileHeader) BitmapInfoHeader.zero.toBytes
      sizeofBitmapInfoHeader
      (by simp only [sizeofBitmapFileHeader, sizeofBitmapInfoHeader, List.length_drop]; omega)
    unfold LoadBMP
    simp only [readFileHeader, readInfoHeader, IStream.open, h1, h2]
    refine hcheck _ _ _ rfl ?_
    rw [byteAt_after_short_read _ _ 39
      (by simp only [sizeofBitmapFileHeader, List.length_drop]; omega)]
    decide

theorem loadLine_congr (b1 b2 : List Byte) (n : Nat) (line : Nat → Color)
    (h : ∀ k, k < 3 * n → b1[k]? = b2[k]?) :
    loadLine b1 n line = loadLine b2 n line := by
  induction n with
  | zero => rfl
  | succ n ih =>
    simp only [loadLine, getAt]
    rw [ih (fun k hk => h k (by omega)), h (n * 3 + 0) (by omega), h (n * 3 + 1) (by omega),
      h (n * 3 + 2) (by omega)]

theorem loadRows_congr (w s : Int) (n : Nat) :
    ∀ (r1 r2 : List Byte) (e f b : Bool) (img : Image), r1.length = r2.length →
      (∀ j k, j < n → k < 3 * w.toNat → r1[j * s.toNat + k]? = r2[j * s.toNat + k]?) →
      loadRows w s n { rest := r1, eofbit := e, failbit := f, badbit := b } img
        = loadRows w s n { rest := r2, eofbit := e, failbit := f, badbit := b } img := by
  induction n with
  | zero =>
    intro r1 r2 e f b img _ _
    rfl
  | succ n ih =>
    intro r1 r2 e f b img hlen hdata
    simp only [loadRows]
    cases hbuf : newBuffer s with
    | none => rfl
    | some buff =>
      simp only [Option.bind_eq_bind, Option.some_bind, IStream.read, IStream.good,
        IStream.bad]
      have htl : (r1.take s.toNat).length = (r2.take s.toNat).length := by
        rw [List.length_take, List.length_take, hlen]
      have hdl : (r1.drop s.toNat).length = (r2.drop s.toNat).length := by
        rw [List.length_drop, List.length_drop, hlen]
      have hshift : ∀ j k, j < n → k < 3 * w.toNat →
          (r1.drop s.toNat)[j * s.toNat + k]? = (r2.drop s.toNat)[j * s.toNat + k]? := by
        intro j k hj hk
        rw [List.getElem?_drop, List.getElem?_drop]
        have e1 : s.toNat + (j * s.toNat + k) = (j + 1) * s.toNat + k := by
          rw [Nat.succ_mul]; omega
        rw [e1]
        exact hdata (j + 1) k (by omega) hk
      have hrow : ∀ k, k < 3 * w.toNat →
          (r1.take s.toNat ++ buff.drop (r1.take s.toNat).length)[k]?
            = (r2.take s.toNat ++ buff.drop (r1.take s.toNat).length)[k]? := by
        intro k hk
        rw [List.getElem?_append, List.getElem?_append, ← htl]
        by_cases hkl : k < (r1.take s.toNat).length
        · rw [if_pos hkl, if_pos hkl]
          have hks : k < s.toNat := by
            rw [List.length_take] at hkl; omega
          rw [List.getElem?_take_of_lt hks, List.getElem?_take_of_lt hks]
          have h0 := hdata 0 k (by omega) hk
          rw [Nat.zero_mul, Nat.zero_add] at h0
          exact h0
        · rw [if_neg hkl, if_neg hkl]
      cases hg : (!e && !f && !b) with
      | false =>
        simp only [Bool.false_eq_true, if_false]
        cases b with
        | true => rfl
        | false =>
          simp only [Bool.false_eq_true, if_false]
          cases hl : loadLine buff w.toNat (img.GetLine n) with
          | none => rfl
          | some line =>
            simp only [Option.bind_eq_bind, Option.some_bind]
            exact ih r1 r2 e true false _ hlen
              (fun j k hj hk => hdata j k (by omega) hk)
      | true =>
        simp only [if_true]
        have hb : b = false := by
          cases b with
          | false => rfl
          | true => simp at hg
        subst hb
        rw [← htl]
        by_cases hshort : (r1.take s.toNat).length < s.toNat
        · simp only [if_pos hshort, Bool.false_eq_true, if_false]
          rw [loadLine_congr _ _ w.toNat (img.GetLine n) hrow]
          cases hl : loadLine (r2.take s.toNat ++ buff.drop (r1.take s.toNat).length) w.toNat
              (img.GetLine n) with
          | none => rfl
          | some line =>
            simp only [Option.bind_eq_bind, Option.some_bind]
            exact ih _ _ true true false _ hdl hshift
        · simp only [if_neg hshort, Bool.false_eq_true, if_false]
          rw [loadLine_congr _ _ w.toNat (img.GetLine n) hrow]
          cases hl : loadLine (r2.take s.toNat ++ buff.drop (r1.take s.toNat).length) w.toNat
              (img.GetLine n) with
          | none => rfl
          | some line =>
            simp only [Option.bind_eq_bind, Option.some_bind]
            exact ih _ _ e f false _ hdl hshift

theorem byteAt_congr (f1 f2 : List Byte) (i : Nat) (h : f1[i]? = f2[i]?) :
    byteAt f1 i = byteAt f2 i := by
  unfold byteAt
  rw [List.getD_eq_getElem?_getD, List.getD_eq_getElem?_getD, h]

/-! ## C1: round trip -/

/-- C1, as amended: for every image with `1 ≤ width ≤ 715827881` and `height ≥ 1` and
arbitrary pixel colours, `SaveBMP` returns, and loading with `LoadBMP` the exact bytes
it writes yields an image with the same width, the same height, and, for every row
`y` and column `x`, the same `r`, `g` and `b` values as the original. -/
theorem C1_round_trip (image : Image) (hwf : image.WellFormed)
    (hw1 : 1 ≤ image.width) (hw : image.width ≤ 715827881) (hh1 : 1 ≤ image.height) :
    ∃ bytes result, SaveBMP image = some bytes ∧ LoadBMP bytes = some result
      ∧ result.width = image.width ∧ result.height = image.height
      ∧ ∀ y x : Nat, (y : Int) < image.height → (x : Int) < image.width →
          (result.pixels y x).r = (image.pixels y x).r
          ∧ (result.pixels y x).g = (image.pixels y x).g
          ∧ (result.pixels y x).b = (image.pixels y x).b := by
  obtain ⟨hw0, hwlt, hh0, hhlt⟩ := hwf
  obtain ⟨rows, hsave, hlen, hrows⟩ := SaveBMP_spec image hw0 hw
  have hs := GetBMPStride_eq image.width hw0 hw
  have hs0 : 0 ≤ GetBMPStride image.width := by omega
  have hinfo := infoHeaderOf_append image rows
  have hwidth : (infoHeaderOf (headerBytes image ++ rows)).width = image.width := by
    rw [hinfo]
    exact toInt32_of_range image.width (by omega) hwlt
  have hheight : (infoHeaderOf (headerBytes image ++ rows)).height = image.height := by
    rw [hinfo]
    exact toInt32_of_range image.height (by omega) hhlt
  have hvalid : CheckLoadImageOnBGR24 (fileHeaderOf (headerBytes image ++ rows))
      (infoHeaderOf (headerBytes image ++ rows)) = true := by
    rw [fileHeaderOf_append, hinfo]
    exact CheckLoadImageOnBGR24_ofImage image
  have hdata : 54 + GetBMPStride (infoHeaderOf (headerBytes image ++ rows)).width
      * (infoHeaderOf (headerBytes image ++ rows)).height
      ≤ (headerBytes image ++ rows).length := by
    rw [hwidth, hheight, List.length_append, headerBytes_length, hlen]
    push_cast
    rw [Int.toNat_of_nonneg hh0, Int.toNat_of_nonneg hs0]
    have hc : GetBMPStride image.width * image.height
        = image.height * GetBMPStride image.width := Int.mul_comm _ _
    omega
  obtain ⟨result, hload, hwd, hht, hpix⟩ := LoadBMP_spec (headerBytes image ++ rows) hvalid
    (by rw [hwidth]; exact hw0) (by rw [hwidth]; exact hw) (by rw [hheight]; exact hh0) hdata
  rw [hwidth, hheight] at hpix
  refine ⟨headerBytes image ++ rows, result, hsave, hload, hwd.trans hwidth,
    hht.trans hheight, ?_⟩
  intro y x hy hx
  have hyj : y + (image.height.toNat - 1 - y) + 1 = image.height.toNat := by omega
  obtain ⟨lb, lg, lr⟩ := hpix y (image.height.toNat - 1 - y) hyj x (by omega)
  obtain ⟨sb, sg, sr⟩ := (hrows y (image.height.toNat - 1 - y) hyj).1 x (by omega)
  have hidx : ∀ i, (headerBytes image ++ rows)[54 + i]? = rows[i]? := by
    intro i
    rw [List.getElem?_append_right (by rw [headerBytes_length]; omega), headerBytes_length,
      Nat.add_sub_cancel_left]
  rw [hidx, sb] at lb
  rw [hidx, sg] at lg
  rw [hidx, sr] at lr
  exact ⟨(Option.some.inj lr).symm, (Option.some.inj lg).symm, (Option.some.inj lb).symm⟩

/-- C1, witness: the amended statement at the 2x2 image `sampleImage`. -/
theorem C1_round_trip_witness :
    ∃ bytes result, SaveBMP sampleImage = some bytes ∧ LoadBMP bytes = some result
      ∧ result.width = sampleImage.width ∧ result.height = sampleImage.height
      ∧ ∀ y x : Nat, (y : Int) < sampleImage.height → (x : Int) < sampleImage.width →
          (result.pixels y x).r = (sampleImage.pixels y x).r
          ∧ (result.pixels y x).g = (sampleImage.pixels y x).g
          ∧ (result.pixels y x).b = (sampleImage.pixels y x).b :=
  C1_round_trip sampleImage (by decide) (by decide) (by decide) (by decide)

/-- C1, counterexample: `wideImage` is a well-formed image with width 715827882 ≥ 1 and
height 1 ≥ 1; `SaveBMP` does not return for it (its row buffer is requested with the
negative size `GetBMPStride 715827882 = -2147483648`), so there are no written bytes
that `LoadBMP` could turn back into the image. -/
theorem C1_wide_image_has_no_round_trip :
    wideImage.WellFormed ∧ 1 ≤ wideImage.width ∧ 1 ≤ wideImage.height
      ∧ GetBMPStride wideImage.width = -2147483648
      ∧ ¬ ∃ bytes result, SaveBMP wideImage = some bytes ∧ LoadBMP bytes = some result
          ∧ result.width = wideImage.width ∧ result.height = wideImage.height := by
  refine ⟨by decide, by decide, by decide, by decide, ?_⟩
  rintro ⟨bytes, result, hb, -⟩
  have hnone : SaveBMP wideImage = none := by decide
  rw [hnone] at hb
  exact Option.noConfusion hb

/-! ## C2: stride -/

/-- C2, as amended: for every width `w` with `0 ≤ w ≤ 715827881`, `GetBMPStride w`
equals `4 * ((3 * w + 3) / 4)` with floor division, it is a multiple of 4, it is at
least `3 * w` and less than `3 * w + 4`, and it is the least multiple of 4 that is at
least `3 * w`; the values at 0, 1, 4 and 5 are 0, 4, 12 and 16. -/
theorem C2_stride_exact_in_range (w : Int) (h0 : 0 ≤ w) (h1 : w ≤ 715827881) :
    GetBMPStride w = 4 * ((3 * w + 3) / 4)
      ∧ GetBMPStride w % 4 = 0
      ∧ 3 * w ≤ GetBMPStride w
      ∧ GetBMPStride w < 3 * w + 4
      ∧ (∀ m : Int, m % 4 = 0 → 3 * w ≤ m → GetBMPStride w ≤ m)
      ∧ GetBMPStride 0 = 0 ∧ GetBMPStride 1 = 4 ∧ GetBMPStride 4 = 12
      ∧ GetBMPStride 5 = 16 := by
  have h := GetBMPStride_eq w h0 h1
  refine ⟨h, ?_, ?_, ?_, ?_, by decide, by decide, by decide, by decide⟩
  · omega
  · omega
  · omega
  · intro m hm hle
    omega

/-- C2, witness: the amended statement at width 5. -/
theorem C2_stride_exact_in_range_witness :
    GetBMPStride 5 = 4 * ((3 * 5 + 3) / 4)
      ∧ GetBMPStride 5 % 4 = 0
      ∧ 3 * 5 ≤ GetBMPStride 5
      ∧ GetBMPStride 5 < 3 * 5 + 4
      ∧ (∀ m : Int, m % 4 = 0 → 3 * 5 ≤ m → GetBMPStride 5 ≤ m)
      ∧ GetBMPStride 0 = 0 ∧ GetBMPStride 1 = 4 ∧ GetBMPStride 4 = 12
      ∧ GetBMPStride 5 = 16 :=
  C2_stride_exact_in_range 5 (by decide) (by decide)

/-- C2, counterexample: the width 715827882 is a non-negative `int`, and there the
function returns -2147483648, which is neither `4 * ((3 * w + 3) / 4)` nor at least
`3 * w`. -/
theorem C2_stride_wraps_at_715827882 :
    (0 : Int) ≤ 715827882 ∧ (715827882 : Int) < 2147483648
      ∧ GetBMPStride 715827882 = -2147483648
      ∧ GetBMPStride 715827882 ≠ 4 * ((3 * 715827882 + 3) / 4)
      ∧ ¬ 3 * 715827882 ≤ GetBMPStride 715827882 := by
  decide

/-! ## C3: file size field -/

/-- C3, as amended: for every image of width at most 715827881 for which
`54 + GetBMPStride(width) * height` is below 2^32, `SaveBMP` returns, the number of
bytes it writes equals the `file_size` field stored in bytes 2..5 (little-endian), and
that value is `54 + GetBMPStride(width) * height`. -/
theorem C3_file_size_field_is_length (image : Image) (hwf : image.WellFormed)
    (hw : image.width ≤ 715827881)
    (hsz : 54 + GetBMPStride image.width * image.height < 4294967296) :
    ∃ bytes, SaveBMP image = some bytes
      ∧ (bytes.length : Int) = rdU32 bytes 2
      ∧ rdU32 bytes 2 = 54 + GetBMPStride image.width * image.height := by
  obtain ⟨hw0, -, hh0, -⟩ := hwf
  obtain ⟨rows, hsave, hlen, -⟩ := SaveBMP_spec image hw0 hw
  have hs := GetBMPStride_eq image.width hw0 hw
  have hs0 : 0 ≤ GetBMPStride image.width := by omega
  have hprod : 0 ≤ GetBMPStride image.width * image.height := Int.mul_nonneg hs0 hh0
  have hfield : rdU32 (headerBytes image ++ rows) 2
      = 54 + GetBMPStride image.width * image.height := by
    rw [(SaveBMP_header_fields image rows).2.2.1]
    simp only [BitmapFileHeader.ofImage, Image.GetWidth, Image.GetHeight, toUInt32, toInt32,
      sizeofBitmapInfoHeader, sizeofBitmapFileHeader, Nat.cast_ofNat]
    omega
  refine ⟨headerBytes image ++ rows, hsave, ?_, hfield⟩
  rw [hfield, List.length_append, headerBytes_length, hlen]
  push_cast
  rw [Int.toNat_of_nonneg hh0, Int.toNat_of_nonneg hs0]
  ring

/-- C3, witness: the amended statement at the 2x2 image `sampleImage`. -/
theorem C3_file_size_field_is_length_witness :
    ∃ bytes, SaveBMP sampleImage = some bytes
      ∧ (bytes.length : Int) = rdU32 bytes 2
      ∧ rdU32 bytes 2 = 54 + GetBMPStride sampleImage.width * sampleImage.height :=
  C3_file_size_field_is_length sampleImage (by decide) (by decide) (by decide)

/-- C3, counterexample: `tallImage` (width 1, height 2^30) is a well-formed image,
`SaveBMP` writes 54 + 2^32 bytes for it, and no 4-byte field can hold that number: the
bytes written are not as many as the stored `file_size` says. For `wideImage` (width
715827882, height 1) `SaveBMP` does not return at all. -/
theorem C3_file_size_field_wraps :
    tallImage.WellFormed ∧ wideImage.WellFormed
      ∧ (¬ ∃ bytes, SaveBMP tallImage = some bytes ∧ (bytes.length : Int) = rdU32 bytes 2)
      ∧ SaveBMP wideImage = none := by
  refine ⟨by decide, by decide, ?_, by decide⟩
  rintro ⟨bytes, hb, hlen⟩
  obtain ⟨rows, hsave, hrows⟩ := SaveBMP_tallImage
  rw [hsave] at hb
  have hbytes : bytes = headerBytes tallImage ++ rows := (Option.some.inj hb).symm
  have hl : (bytes.length : Int) = 54 + 4294967296 := by
    rw [hbytes, List.length_append, headerBytes_length, hrows]
    rfl
  have hr := rdU32_range bytes 2
  omega

/-! ## C4: header layout -/

/-- C4, as amended: for every image of width at most 715827881 for which
`GetBMPStride(width) * height` is below 2^32, `SaveBMP` returns and the first 54 bytes
it writes are the packed little-endian header of the format table: signature 'B', 'M'
at offset 0, both reserved fields 0, pixel data offset 54 at offset 10, info header
size 40 at offset 14, the width at 18 and the height at 22, planes 1, bits per pixel
24, compression 0, image size `GetBMPStride(width) * height` at offset 34, both
resolutions 11811, colours used 0 and colours important 0x1000000 at offset 50. -/
theorem C4_header_layout (image : Image) (hwf : image.WellFormed)
    (hw : image.width ≤ 715827881)
    (hsz : GetBMPStride image.width * image.height < 4294967296) :
    ∃ bytes, SaveBMP image = some bytes
      ∧ 54 ≤ bytes.length
      ∧ bytes[0]? = some 66 ∧ bytes[1]? = some 77
      ∧ rdU16 bytes 6 = 0 ∧ rdU16 bytes 8 = 0
      ∧ rdU32 bytes 10 = 54
      ∧ rdU32 bytes 14 = 40
      ∧ rdI32 bytes 18 = image.width
      ∧ rdI32 bytes 22 = image.height
      ∧ rdU16 bytes 26 = 1
      ∧ rdU16 bytes 28 = 24
      ∧ rdU32 bytes 30 = 0
      ∧ rdU32 bytes 34 = GetBMPStride image.width * image.height
      ∧ rdI32 bytes 38 = 11811 ∧ rdI32 bytes 42 = 11811
      ∧ rdI32 bytes 46 = 0
      ∧ rdI32 bytes 50 = 0x1000000 := by
  obtain ⟨hw0, hw1, hh0, hh1⟩ := hwf
  obtain ⟨rows, hsave, -, -⟩ := SaveBMP_spec image hw0 hw
  have hs := GetBMPStride_eq image.width hw0 hw
  have hs0 : 0 ≤ GetBMPStride image.width := by omega
  have hprod : 0 ≤ GetBMPStride image.width * image.height := Int.mul_nonneg hs0 hh0
  obtain ⟨g0, g1, -, g6, g8, g10, g14, g18, g22, g26, g28, g30, g34, g38, g42, g46, g50⟩ :=
    SaveBMP_header_fields image rows
  refine ⟨headerBytes image ++ rows, hsave, ?_, g0, g1, g6, g8, g10, g14, ?_, ?_, g26, g28,
    g30, ?_, g38, g42, g46, g50⟩
  · rw [List.length_append, headerBytes_length]; omega
  · rw [g18, toInt32_of_range _ (by omega) hw1]
  · rw [g22, toInt32_of_range _ (by omega) hh1]
  · rw [g34]
    simp only [BitmapInfoHeader.ofImage, Image.GetWidth, Image.GetHeight, toUInt32, toInt32]
    omega

/-- C4, witness: the amended statement at the 2x2 image `sampleImage`. -/
theorem C4_header_layout_witness :
    ∃ bytes, SaveBMP sampleImage = some bytes
      ∧ 54 ≤ bytes.length
      ∧ bytes[0]? = some 66 ∧ bytes[1]? = some 77
      ∧ rdU16 bytes 6 = 0 ∧ rdU16 bytes 8 = 0
      ∧ rdU32 bytes 10 = 54
      ∧ rdU32 bytes 14 = 40
      ∧ rdI32 bytes 18 = sampleImage.width
      ∧ rdI32 bytes 22 = sampleImage.height
      ∧ rdU16 bytes 26 = 1
      ∧ rdU16 bytes 28 = 24
      ∧ rdU32 bytes 30 = 0
      ∧ rdU32 bytes 34 = GetBMPStride sampleImage.width * sampleImage.height
      ∧ rdI32 bytes 38 = 11811 ∧ rdI32 bytes 42 = 11811
      ∧ rdI32 bytes 46 = 0
      ∧ rdI32 bytes 50 = 0x1000000 :=
  C4_header_layout sampleImage (by decide) (by decide) (by decide)

/-- C4, counterexample: for the well-formed image `tallImage` (width 1, height 2^30)
the product `GetBMPStride(width) * height` is 2^32, and the 4-byte field at offset 34
of the file that `SaveBMP` writes does not hold it. For the well-formed image
`wideImage` (width 715827882, height 1) `SaveBMP` does not return at all. -/
theorem C4_image_size_field_wraps :
    tallImage.WellFormed ∧ wideImage.WellFormed
      ∧ GetBMPStride tallImage.width * tallImage.height = 4294967296
      ∧ (SaveBMP wideImage).isNone = true
      ∧ ¬ ∃ bytes, SaveBMP tallImage = some bytes
          ∧ rdU32 bytes 34 = GetBMPStride tallImage.width * tallImage.height := by
  refine ⟨by decide, by decide, by decide, by decide, ?_⟩
  rintro ⟨bytes, -, hfield⟩
  have hp : GetBMPStride tallImage.width * tallImage.height = 4294967296 := by decide
  have hr := rdU32_range bytes 34
  omega

/-! ## C5: pixel rows written -/

/-- C5, as amended: for every image of width `w` at most 715827881 and height `h`,
with `s = GetBMPStride(w)`, `SaveBMP` returns and the bytes after the 54-byte header
are the rows bottom-up: for every row `y` in `[0, h)` and column `x` in `[0, w)` the
bytes at file offsets `54 + (h-1-y)*s + 3*x + 0, +1, +2` are the blue, green and red
values of that pixel, and every byte at offset `54 + (h-1-y)*s + k` with
`3*w ≤ k < s` is zero. -/
theorem C5_rows_bottom_up (image : Image) (hwf : image.WellFormed)
    (hw : image.width ≤ 715827881) :
    ∃ bytes, SaveBMP image = some bytes
      ∧ bytes.length = 54 + image.height.toNat * (GetBMPStride image.width).toNat
      ∧ ∀ y : Nat, (y : Int) < image.height →
          (∀ x : Nat, (x : Int) < image.width →
            bytes[54 + (image.height.toNat - 1 - y) * (GetBMPStride image.width).toNat
                + 3 * x + 0]? = some (image.pixels y x).b
            ∧ bytes[54 + (image.height.toNat - 1 - y) * (GetBMPStride image.width).toNat
                + 3 * x + 1]? = some (image.pixels y x).g
            ∧ bytes[54 + (image.height.toNat - 1 - y) * (GetBMPStride image.width).toNat
                + 3 * x + 2]? = some (image.pixels y x).r)
          ∧ (∀ k : Nat, 3 * image.width.toNat ≤ k → k < (GetBMPStride image.width).toNat →
            bytes[54 + (image.height.toNat - 1 - y) * (GetBMPStride image.width).toNat
                + k]? = some 0) := by
  obtain ⟨hw0, -, hh0, -⟩ := hwf
  obtain ⟨rows, hsave, hlen, hrows⟩ := SaveBMP_spec image hw0 hw
  refine ⟨headerBytes image ++ rows, hsave, ?_, ?_⟩
  · rw [List.length_append, headerBytes_length, hlen]
  intro y hy
  obtain ⟨hp, hz⟩ := hrows y (image.height.toNat - 1 - y) (by omega)
  have hidx : ∀ i, (headerBytes image ++ rows)[54 + i]? = rows[i]? := by
    intro i
    rw [List.getElem?_append_right (by rw [headerBytes_length]; omega), headerBytes_length,
      Nat.add_sub_cancel_left]
  refine ⟨fun x hx => ?_, fun k hk1 hk2 => ?_⟩
  · obtain ⟨pb, pg, pr⟩ := hp x (by omega)
    refine ⟨?_, ?_, ?_⟩
    · rw [← pb, ← hidx]; exact getElem?_index_congr _ (by omega)
    · rw [← pg, ← hidx]; exact getElem?_index_congr _ (by omega)
    · rw [← pr, ← hidx]; exact getElem?_index_congr _ (by omega)
  · rw [← hz k (by omega) hk2, ← hidx]; exact getElem?_index_congr _ (by omega)

/-- C5, witness: the amended statement at the 2x2 image `sampleImage`. -/
theorem C5_rows_bottom_up_witness :
    ∃ bytes, SaveBMP sampleImage = some bytes
      ∧ bytes.length = 54 + sampleImage.height.toNat * (GetBMPStride sampleImage.width).toNat
      ∧ ∀ y : Nat, (y : Int) < sampleImage.height →
          (∀ x : Nat, (x : Int) < sampleImage.width →
            bytes[54 + (sampleImage.height.toNat - 1 - y)
                * (GetBMPStride sampleImage.width).toNat + 3 * x + 0]?
              = some (sampleImage.pixels y x).b
            ∧ bytes[54 + (sampleImage.height.toNat - 1 - y)
                * (GetBMPStride sampleImage.width).toNat + 3 * x + 1]?
              = some (sampleImage.pixels y x).g
            ∧ bytes[54 + (sampleImage.height.toNat - 1 - y)
                * (GetBMPStride sampleImage.width).toNat + 3 * x + 2]?
              = some (sampleImage.pixels y x).r)
          ∧ (∀ k : Nat, 3 * sampleImage.width.toNat ≤ k →
              k < (GetBMPStride sampleImage.width).toNat →
            bytes[54 + (sampleImage.height.toNat - 1 - y)
                * (GetBMPStride sampleImage.width).toNat + k]? = some 0) :=
  C5_rows_bottom_up sampleImage (by decide) (by decide)

/-- C5, counterexample: `wideImage` (width 715827882, height 1) is a well-formed
image whose stride is negative; `SaveBMP` does not return for it, so no byte of its
row 0 is written at the offsets the claim names. -/
theorem C5_wide_image_not_written :
    wideImage.WellFormed ∧ GetBMPStride wideImage.width = -2147483648
      ∧ ¬ ∃ bytes, SaveBMP wideImage = some bytes
          ∧ bytes[54 + (wideImage.height.toNat - 1 - 0) * (GetBMPStride wideImage.width).toNat
              + 3 * 0 + 0]? = some (wideImage.pixels 0 0).b := by
  refine ⟨by decide, by decide, ?_⟩
  rintro ⟨bytes, hb, -⟩
  have hnone : SaveBMP wideImage = none := by decide
  rw [hnone] at hb
  exact Option.noConfusion hb

/-! ## C6: pixel rows read -/

/-- C6, as amended: for every file whose 54-byte header passes the format validator,
has width `w` with `0 ≤ w ≤ 715827881` and height `h ≥ 0`, and is followed by at least
`GetBMPStride(w) * h` bytes of pixel data, `LoadBMP` returns an image of width `w` and
height `h` in which pixel `(x, y)` has `b`, `g`, `r` equal to the file bytes at offsets
`54 + (h-1-y)*s + 3*x + 0, +1, +2`, where `s = GetBMPStride(w)`. -/
theorem C6_load_reads_rows_bottom_up (file : List Byte)
    (hvalid : CheckLoadImageOnBGR24 (fileHeaderOf file) (infoHeaderOf file) = true)
    (hw0 : 0 ≤ (infoHeaderOf file).width) (hw1 : (infoHeaderOf file).width ≤ 715827881)
    (hh0 : 0 ≤ (infoHeaderOf file).height)
    (hdata : 54 + GetBMPStride (infoHeaderOf file).width * (infoHeaderOf file).height
      ≤ file.length) :
    ∃ img, LoadBMP file = some img
      ∧ img.width = (infoHeaderOf file).width ∧ img.height = (infoHeaderOf file).height
      ∧ ∀ y x : Nat, (y : Int) < (infoHeaderOf file).height →
          (x : Int) < (infoHeaderOf file).width →
            file[54 + ((infoHeaderOf file).height.toNat - 1 - y)
                * (GetBMPStride (infoHeaderOf file).width).toNat + 3 * x + 0]?
              = some (img.pixels y x).b
            ∧ file[54 + ((infoHeaderOf file).height.toNat - 1 - y)
                * (GetBMPStride (infoHeaderOf file).width).toNat + 3 * x + 1]?
              = some (img.pixels y x).g
            ∧ file[54 + ((infoHeaderOf file).height.toNat - 1 - y)
                * (GetBMPStride (infoHeaderOf file).width).toNat + 3 * x + 2]?
              = some (img.pixels y x).r := by
  obtain ⟨img, hload, hwd, hht, hpix⟩ := LoadBMP_spec file hvalid hw0 hw1 hh0 hdata
  refine ⟨img, hload, hwd, hht, ?_⟩
  intro y x hy hx
  obtain ⟨pb, pg, pr⟩ := hpix y ((infoHeaderOf file).height.toNat - 1 - y) (by omega) x
    (by omega)
  refine ⟨?_, ?_, ?_⟩
  · rw [← pb]; exact getElem?_index_congr _ (by omega)
  · rw [← pg]; exact getElem?_index_congr _ (by omega)
  · rw [← pr]; exact getElem?_index_congr _ (by omega)

/-- C6, witness: the amended statement at the 58-byte file `onePixelFile`. -/
theorem C6_load_reads_rows_bottom_up_witness :
    ∃ img, LoadBMP onePixelFile = some img
      ∧ img.width = (infoHeaderOf onePixelFile).width
      ∧ img.height = (infoHeaderOf onePixelFile).height
      ∧ ∀ y x : Nat, (y : Int) < (infoHeaderOf onePixelFile).height →
          (x : Int) < (infoHeaderOf onePixelFile).width →
            onePixelFile[54 + ((infoHeaderOf onePixelFile).height.toNat - 1 - y)
                * (GetBMPStride (infoHeaderOf onePixelFile).width).toNat + 3 * x + 0]?
              = some (img.pixels y x).b
            ∧ onePixelFile[54 + ((infoHeaderOf onePixelFile).height.toNat - 1 - y)
                * (GetBMPStride (infoHeaderOf onePixelFile).width).toNat + 3 * x + 1]?
              = some (img.pixels y x).g
            ∧ onePixelFile[54 + ((infoHeaderOf onePixelFile).height.toNat - 1 - y)
                * (GetBMPStride (infoHeaderOf onePixelFile).width).toNat + 3 * x + 2]?
              = some (img.pixels y x).r :=
  C6_load_reads_rows_bottom_up onePixelFile (by decide) (by decide) (by decide) (by decide)
    (by decide)

/-- C6, counterexample: the 54-byte file `wideHeaderFile` has a header that passes the
validator, width 715827882 and height 1, and `GetBMPStride(w) * h` is negative, so the
file holds at least that many bytes of pixel data; `LoadBMP` does not return an image
for it (the row buffer is requested with a negative size). -/
theorem C6_wide_header_not_loaded :
    CheckLoadImageOnBGR24 (fileHeaderOf wideHeaderFile) (infoHeaderOf wideHeaderFile) = true
      ∧ (infoHeaderOf wideHeaderFile).width = 715827882
      ∧ (infoHeaderOf wideHeaderFile).height = 1
      ∧ 54 + GetBMPStride (infoHeaderOf wideHeaderFile).width
          * (infoHeaderOf wideHeaderFile).height ≤ wideHeaderFile.length
      ∧ (LoadBMP wideHeaderFile).isNone = true
      ∧ ¬ ∃ img, LoadBMP wideHeaderFile = some img := by
  refine ⟨by decide, by decide, by decide, by decide, by decide, ?_⟩
  rintro ⟨img, himg⟩
  have hnone : (LoadBMP wideHeaderFile).isNone = true := by decide
  rw [himg] at hnone
  exact Bool.noConfusion hnone

/-! ## C7: validator -/

/-- C7, evaluation of the code at the failing input: the header pair with signature
'B', 'X' and supported values in every other checked field is accepted, although its
signature byte 1 is not 'M'. -/
theorem C7_validator_accepts_signature_B_X :
    oneByteSignatureHeader.signature.1 = 66 ∧ oneByteSignatureHeader.signature.2 ≠ 77
      ∧ CheckLoadImageOnBGR24 oneByteSignatureHeader supportedInfoHeader = true := by
  decide

/-! ## C8: signature mismatch on load -/

/-- C8, evaluation of the code at the failing input: the file whose signature bytes are
'B', 'X' is decoded to a 1x1 image with the pixel stored in it, not to the empty
image. -/
theorem C8_signature_B_X_is_loaded :
    oneByteSignatureFile.take 2 = [66, 88]
      ∧ (LoadBMP oneByteSignatureFile).map (fun i => (i.width, i.height, i.pixels 0 0))
          = some (1, 1, ⟨3, 2, 1⟩) := by
  decide

/-! ## C9: unsupported header on load -/

/-- C9: for every file of at least 54 bytes whose info header has `bit_per_pixel ≠ 24`,
or `planes ≠ 1`, or `compress ≠ 0`, or `x_resolution ≠ 11811`, or
`y_resolution ≠ 11811`, or `count_important_colors ≠ 0x1000000`, `LoadBMP` returns the
empty 0x0 image, whatever the signature, the dimensions and the pixel data are. -/
theorem C9_unsupported_header_loads_empty (file : List Byte) (hlen : 54 ≤ file.length)
    (h : (infoHeaderOf file).bit_per_pixel ≠ 24 ∨ (infoHeaderOf file).planes ≠ 1
      ∨ (infoHeaderOf file).compress ≠ 0 ∨ (infoHeaderOf file).x_resolution ≠ 11811
      ∨ (infoHeaderOf file).y_resolution ≠ 11811
      ∨ (infoHeaderOf file).count_important_colors ≠ 0x1000000) :
    LoadBMP file = some Image.empty
      ∧ Image.empty.width = 0 ∧ Image.empty.height = 0 := by
  refine ⟨?_, rfl, rfl⟩
  rw [LoadBMP_of_header file hlen]
  have hc : ¬ CheckLoadImageOnBGR24 (fileHeaderOf file) (infoHeaderOf file) = true := by
    rw [CheckLoadImageOnBGR24_eq_true_iff]
    rintro ⟨-, h1, h2, h3, h4, h5, h6⟩
    rcases h with h | h | h | h | h | h
    · exact h h2
    · exact h h1
    · exact h h3
    · exact h h4
    · exact h h5
    · exact h h6
  rw [if_neg hc]

/-- C9, witness: the file `wrongDepthFile`, 58 bytes with 32 bits per pixel. -/
theorem C9_unsupported_header_loads_empty_witness :
    LoadBMP wrongDepthFile = some Image.empty
      ∧ Image.empty.width = 0 ∧ Image.empty.height = 0 :=
  C9_unsupported_header_loads_empty wrongDepthFile (by decide) (Or.inl (by decide))

/-! ## C10: truncated pixel data -/

/-- C10, evaluation of the code at the failing input: the file `truncatedFile` is a
complete supported header of width 1 and height 1 followed by no pixel data, where
one row of `GetBMPStride 1 = 4` bytes is due; `LoadBMP` returns a 1x1 image holding a
black pixel, not the empty image. -/
theorem C10_truncated_file_is_loaded :
    truncatedFile.length = 54
      ∧ CheckLoadImageOnBGR24 (fileHeaderOf truncatedFile) (infoHeaderOf truncatedFile) = true
      ∧ (infoHeaderOf truncatedFile).width = 1 ∧ (infoHeaderOf truncatedFile).height = 1
      ∧ GetBMPStride 1 * 1 = 4
      ∧ (LoadBMP truncatedFile).map (fun i => (i.width, i.height, i.pixels 0 0))
          = some (1, 1, Color.Black)
      ∧ LoadBMP truncatedFile ≠ some Image.empty := by
  refine ⟨by decide, by decide, by decide, by decide, by decide, by decide, ?_⟩
  intro h
  have hw : (LoadBMP truncatedFile).map (fun i => i.width) = some 1 := by decide
  rw [h] at hw
  exact absurd hw (by decide)

/-! ## C11: files shorter than the headers -/

/-- C11: for every file shorter than 54 bytes, the empty file included, whatever its
bytes are, `LoadBMP` returns the empty 0x0 image: the last byte of
`count_important_colors` is never filled, so the header read cannot pass validation. -/
theorem C11_short_file_loads_empty (file : List Byte) (hlen : file.length < 54) :
    LoadBMP file = some Image.empty ∧ Image.empty.width = 0 ∧ Image.empty.height = 0 :=
  ⟨LoadBMP_of_short_file file hlen, rfl, rfl⟩

/-- C11, witness: the statement at the first 53 bytes of `onePixelFile`, a supported
header that lacks only its last byte. -/
theorem C11_short_file_loads_empty_witness :
    LoadBMP (onePixelFile.take 53) = some Image.empty
      ∧ Image.empty.width = 0 ∧ Image.empty.height = 0 :=
  C11_short_file_loads_empty (onePixelFile.take 53) (by decide)

/-! ## C12: images of height 0 -/

/-- C12: for every image of height 0, whatever its width is, `SaveBMP` writes exactly
54 bytes (the two headers and no pixel data) and the stored `file_size` field is 54;
this holds in particular for the 0x0 image. -/
theorem C12_height_zero_writes_headers_only (image : Image) (hh : image.height = 0) :
    (∃ bytes, SaveBMP image = some bytes ∧ bytes.length = 54 ∧ rdU32 bytes 2 = 54
        ∧ bytes = headerBytes image)
      ∧ (∃ bytes, SaveBMP Image.empty = some bytes ∧ bytes.length = 54
          ∧ rdU32 bytes 2 = 54) := by
  have key : ∀ img : Image, img.height = 0 →
      ∃ bytes, SaveBMP img = some bytes ∧ bytes.length = 54 ∧ rdU32 bytes 2 = 54
        ∧ bytes = headerBytes img := by
    intro img himg
    have hsave : SaveBMP img = some (headerBytes img) := by
      simp only [SaveBMP, Image.GetHeight, himg, Int.toNat_zero, saveRows, headerBytes,
        List.nil_append]
    refine ⟨headerBytes img, hsave, headerBytes_length img, ?_, rfl⟩
    have hf := (SaveBMP_header_fields img []).2.2.1
    rw [List.append_nil] at hf
    rw [hf]
    simp only [BitmapFileHeader.ofImage, Image.GetHeight, himg, Int.mul_zero, toInt32,
      toUInt32, sizeofBitmapInfoHeader, sizeofBitmapFileHeader]
    decide
  obtain ⟨b0, h1, h2, h3, -⟩ := key Image.empty rfl
  exact ⟨key image hh, b0, h1, h2, h3⟩

/-- C12, witness: the statement at an image of width 5 and height 0. -/
theorem C12_height_zero_writes_headers_only_witness :
    (∃ bytes, SaveBMP ⟨5, 0, fun _ _ => Color.Black⟩ = some bytes ∧ bytes.length = 54
        ∧ rdU32 bytes 2 = 54 ∧ bytes = headerBytes ⟨5, 0, fun _ _ => Color.Black⟩)
      ∧ (∃ bytes, SaveBMP Image.empty = some bytes ∧ bytes.length = 54
          ∧ rdU32 bytes 2 = 54) :=
  C12_height_zero_writes_headers_only ⟨5, 0, fun _ _ => Color.Black⟩ rfl

/-! ## C13: row padding on load -/

/-- C13: for every two files of equal length with identical headers (valid or not; width
`w`, height `h`) that agree on every pixel-data byte at in-row position `k < 3 * w` of
the `h` rows, whatever they hold at the in-row positions `3 * w ≤ k < GetBMPStride w`,
`LoadBMP` returns the same result. -/
theorem C13_row_padding_is_ignored (f1 f2 : List Byte) (hlen : f1.length = f2.length)
    (hhdr : f1.take 54 = f2.take 54)
    (hdata : ∀ j k : Nat, j < (infoHeaderOf f1).height.toNat →
      k < 3 * (infoHeaderOf f1).width.toNat →
      f1[54 + j * (GetBMPStride (infoHeaderOf f1).width).toNat + k]?
        = f2[54 + j * (GetBMPStride (infoHeaderOf f1).width).toNat + k]?) :
    LoadBMP f1 = LoadBMP f2 := by
  by_cases h54 : 54 ≤ f1.length
  · have h54b : 54 ≤ f2.length := by omega
    have hF : fileHeaderOf f2 = fileHeaderOf f1 := by
      have e : ∀ f : List Byte, f.take sizeofBitmapFileHeader
          = (f.take 54).take sizeofBitmapFileHeader := by
        intro f
        rw [List.take_take]
        rfl
      unfold fileHeaderOf
      rw [e f1, e f2, hhdr]
    have hI : infoHeaderOf f2 = infoHeaderOf f1 := by
      have e : ∀ f : List Byte, (f.drop sizeofBitmapFileHeader).take sizeofBitmapInfoHeader
          = (f.take 54).drop sizeofBitmapFileHeader := by
        intro f
        rw [List.drop_take]
        rfl
      unfold infoHeaderOf
      rw [e f1, e f2, hhdr]
    rw [LoadBMP_of_header f1 h54, LoadBMP_of_header f2 h54b, hF, hI]
    by_cases hc : CheckLoadImageOnBGR24 (fileHeaderOf f1) (infoHeaderOf f1) = true
    · rw [if_pos hc, if_pos hc]
      refine loadRows_congr _ _ _ (f1.drop 54) (f2.drop 54) false false false _ ?_ ?_
      · rw [List.length_drop, List.length_drop, hlen]
      · intro j k hj hk
        rw [List.getElem?_drop, List.getElem?_drop, ← Nat.add_assoc]
        exact hdata j k hj hk
    · rw [if_neg hc, if_neg hc]
  · have e1 : f1.take 54 = f1 := List.take_of_length_le (by omega)
    have e2 : f2.take 54 = f2 := List.take_of_length_le (by omega)
    rw [e1, e2] at hhdr
    rw [hhdr]

/-- C13, witness: `onePixelFile` and `paddedOnePixelFile` differ in the padding byte of
their one row only and are loaded to the same result. -/
theorem C13_row_padding_is_ignored_witness :
    onePixelFile ≠ paddedOnePixelFile ∧ LoadBMP onePixelFile = LoadBMP paddedOnePixelFile :=
  ⟨by decide, C13_row_padding_is_ignored onePixelFile paddedOnePixelFile (by decide)
    (by decide) (by
      intro j k hj hk
      have eh : (infoHeaderOf onePixelFile).height.toNat = 1 := by decide
      have ew : (infoHeaderOf onePixelFile).width.toNat = 1 := by decide
      rw [eh] at hj
      rw [ew] at hk
      have hj0 : j = 0 := by omega
      subst hj0
      interval_cases k <;> rfl)⟩

/-! ## C14: the signature test of the validator -/

/-- C14: for every header pair whose other checked fields are valid (planes 1, bits per
pixel 24, compression 0, both resolutions 11811, colours important 0x1000000),
`CheckLoadImageOnBGR24` returns false if and only if signature byte 0 is not 'B' and
signature byte 1 is not 'M'; so a header with exactly one matching signature byte, such
as 'B', 'X' or 'X', 'M', is accepted. -/
theorem C14_signature_rejected_only_when_both_mismatch (header : BitmapFileHeader)
    (info : BitmapInfoHeader) (hp : info.planes = 1) (hb : info.bit_per_pixel = 24)
    (hc : info.compress = 0) (hx : info.x_resolution = 11811)
    (hy : info.y_resolution = 11811) (hi : info.count_important_colors = 0x1000000) :
    (CheckLoadImageOnBGR24 header info = false
        ↔ (header.signature.1 ≠ 66 ∧ header.signature.2 ≠ 77))
      ∧ CheckLoadImageOnBGR24 { header with signature := (66, 88) } info = true
      ∧ CheckLoadImageOnBGR24 { header with signature := (88, 77) } info = true := by
  have key : ∀ hd : BitmapFileHeader, CheckLoadImageOnBGR24 hd info = true
      ↔ (hd.signature.1 = 66 ∨ hd.signature.2 = 77) := by
    intro hd
    rw [CheckLoadImageOnBGR24_eq_true_iff]
    have e66 : byteOf 66 = 66 := by decide
    have e77 : byteOf 77 = 77 := by decide
    rw [e66, e77]
    constructor
    · exact fun h => h.1
    · exact fun h => ⟨h, hp, hb, hc, hx, hy, hi⟩
  refine ⟨?_, (key _).mpr (Or.inl rfl), (key _).mpr (Or.inr rfl)⟩
  rw [← Bool.not_eq_true, key header]
  tauto

/-- C14, witness: the statement at the header pair with signature 'B', 'X'. -/
theorem C14_signature_rejected_only_when_both_mismatch_witness :
    (CheckLoadImageOnBGR24 oneByteSignatureHeader supportedInfoHeader = false
        ↔ (oneByteSignatureHeader.signature.1 ≠ 66 ∧ oneByteSignatureHeader.signature.2 ≠ 77))
      ∧ CheckLoadImageOnBGR24 { oneByteSignatureHeader with signature := (66, 88) }
          supportedInfoHeader = true
      ∧ CheckLoadImageOnBGR24 { oneByteSignatureHeader with signature := (88, 77) }
          supportedInfoHeader = true :=
  C14_signature_rejected_only_when_both_mismatch oneByteSignatureHeader supportedInfoHeader
    (by decide) (by decide) (by decide) (by decide) (by decide) (by decide)

/-! ## C15: the encoder's headers pass the validator -/

/-- C15: for every image, whatever its width, height and pixels are, the header pair
that the encoder builds passes the decoder's validator. -/
theorem C15_encoder_headers_pass_validator (image : Image) :
    CheckLoadImageOnBGR24 (BitmapFileHeader.ofImage image) (BitmapInfoHeader.ofImage image)
      = true :=
  CheckLoadImageOnBGR24_ofImage image

/-! ## C16: row-buffer indices -/

/-- C16: for every width `w ≥ 0` with `3 * w + 3` representable as an `int` and every
column `x` with `0 ≤ x < w`, the three indices `3 * x`, `3 * x + 1` and `3 * x + 2`
that `SaveBMP` and `LoadBMP` use are below the buffer length `GetBMPStride w`; the row
buffer of that length exists, every store and load at those indices succeeds, and the
inner loops of `SaveBMP` and `LoadBMP` over a buffer of that length never reach the
out-of-bounds branch. -/
theorem C16_row_indices_in_bounds (w x : Int) (hw : 0 ≤ w)
    (hrep : 3 * w + 3 < 2147483648) (hx0 : 0 ≤ x) (hx : x < w) :
    3 * x < GetBMPStride w ∧ 3 * x + 1 < GetBMPStride w ∧ 3 * x + 2 < GetBMPStride w
      ∧ ∃ buff, newBuffer (GetBMPStride w) = some buff
          ∧ (buff.length : Int) = GetBMPStride w
          ∧ (∀ v, (setAt buff (x.toNat * 3 + 0) v).isSome = true
              ∧ (setAt buff (x.toNat * 3 + 1) v).isSome = true
              ∧ (setAt buff (x.toNat * 3 + 2) v).isSome = true)
          ∧ (getAt buff (x.toNat * 3 + 0)).isSome = true
          ∧ (getAt buff (x.toNat * 3 + 1)).isSome = true
          ∧ (getAt buff (x.toNat * 3 + 2)).isSome = true
          ∧ (∀ line, (saveLine line w.toNat buff).isSome = true)
          ∧ (∀ (data : List Byte) (line : Nat → Color), data.length = buff.length →
              (loadLine data w.toNat line).isSome = true) := by
  have hs := GetBMPStride_eq w hw (by omega)
  have hs0 : 0 ≤ GetBMPStride w := by omega
  refine ⟨by omega, by omega, by omega, List.replicate (GetBMPStride w).toNat 0,
    newBuffer_of_nonneg _ hs0, ?_, ?_, ?_, ?_, ?_, ?_, ?_⟩
  · rw [List.length_replicate, Int.toNat_of_nonneg hs0]
  · intro v
    simp only [setAt, List.length_replicate]
    refine ⟨?_, ?_, ?_⟩
    · rw [if_pos (by omega)]; rfl
    · rw [if_pos (by omega)]; rfl
    · rw [if_pos (by omega)]; rfl
  · rw [getAt, List.getElem?_eq_getElem (by rw [List.length_replicate]; omega)]; rfl
  · rw [getAt, List.getElem?_eq_getElem (by rw [List.length_replicate]; omega)]; rfl
  · rw [getAt, List.getElem?_eq_getElem (by rw [List.length_replicate]; omega)]; rfl
  · intro line
    obtain ⟨res, hres, -⟩ := saveLine_spec line w.toNat
      (List.replicate (GetBMPStride w).toNat 0) (by rw [List.length_replicate]; omega)
    rw [hres]; rfl
  · intro data line hlen
    rw [List.length_replicate] at hlen
    obtain ⟨res, hres, -⟩ := loadLine_spec data w.toNat line (by omega)
    rw [hres]; rfl

/-- C16, witness: the statement at width 5 and column 4. -/
theorem C16_row_indices_in_bounds_witness :
    (3 : Int) * 4 < GetBMPStride 5 ∧ (3 : Int) * 4 + 1 < GetBMPStride 5
      ∧ (3 : Int) * 4 + 2 < GetBMPStride 5 :=
  have h := C16_row_indices_in_bounds 5 4 (by decide) (by decide) (by decide) (by decide)
  ⟨h.1, h.2.1, h.2.2.1⟩

/-! ## C17: the stride in 32-bit arithmetic -/

/-- C17: with `GetBMPStride` computed as the code does (width converted to 32-bit
unsigned, arithmetic modulo 2^32, result converted to a signed 32-bit `int`), the
result equals the exact value `4 * ((3 * w + 3) / 4)` for every `w` with
`0 ≤ w ≤ 715827881`, where it is at least `3 * w` and not negative; at
`w = 715827882` the result is -2147483648, which is neither at least `3 * w` nor
non-negative; and for every larger `int` width the result stays below `3 * w`. -/
theorem C17_stride_32bit_exact_up_to_bound (w : Int) (h0 : 0 ≤ w) (h1 : w ≤ 715827881) :
    GetBMPStride w = 4 * ((3 * w + 3) / 4)
      ∧ 3 * w ≤ GetBMPStride w
      ∧ 0 ≤ GetBMPStride w
      ∧ GetBMPStride 715827882 = -2147483648
      ∧ ¬ 3 * 715827882 ≤ GetBMPStride 715827882
      ∧ ¬ 0 ≤ GetBMPStride 715827882
      ∧ (∀ v : Int, 715827881 < v → v < 2147483648 → ¬ 3 * v ≤ GetBMPStride v) := by
  have h := GetBMPStride_eq w h0 h1
  refine ⟨h, ?_, ?_, by decide, by decide, by decide, ?_⟩
  · omega
  · omega
  · intro v hv0 hv1 hle
    have hlt := GetBMPStride_lt_of_large v hv0 hv1
    omega

/-- C17, witness: the statement at the last exact width, 715827881. -/
theorem C17_stride_32bit_exact_up_to_bound_witness :
    GetBMPStride 715827881 = 4 * ((3 * 715827881 + 3) / 4)
      ∧ 3 * 715827881 ≤ GetBMPStride 715827881
      ∧ 0 ≤ GetBMPStride 715827881
      ∧ GetBMPStride 715827882 = -2147483648
      ∧ ¬ 3 * 715827882 ≤ GetBMPStride 715827882
      ∧ ¬ 0 ≤ GetBMPStride 715827882
      ∧ (∀ v : Int, 715827881 < v → v < 2147483648 → ¬ 3 * v ≤ GetBMPStride v) :=
  C17_stride_32bit_exact_up_to_bound 715827881 (by decide) (by decide)

/-! ## C18: header fields that the decoder ignores -/

/-- C18: for every two files that hold the same bytes everywhere outside the fields
`file_size` (bytes 2..5), `reserve1` (6..7), `reserve2` (8..9), `offset` (10..13),
`header_size` (14..17), `image_size` (34..37) and `count_used_colors` (46..49),
`LoadBMP` returns the same result: it depends only on the signature, the width, the
height, the planes, the bits per pixel, the compression, both resolutions, the
colours important and the bytes from offset 54 on, and the pixel data is read from
byte 54 whatever the stored pixel-data offset is. -/
theorem C18_ignored_header_fields (f1 f2 : List Byte)
    (hagree : ∀ i : Nat, (i < 2 ∨ (18 ≤ i ∧ i < 34) ∨ (38 ≤ i ∧ i < 46) ∨ 50 ≤ i) →
      f1[i]? = f2[i]?) :
    LoadBMP f1 = LoadBMP f2 := by
  have hlenle : ∀ n, 50 ≤ n → (n < f1.length ↔ n < f2.length) := by
    intro n hn
    have h := hagree n (Or.inr (Or.inr (Or.inr hn)))
    constructor
    · intro h1
      by_contra h2
      rw [List.getElem?_eq_getElem h1, List.getElem?_eq_none (by omega)] at h
      exact Option.noConfusion h
    · intro h2
      by_contra h1
      rw [List.getElem?_eq_getElem h2, List.getElem?_eq_none (by omega)] at h
      exact Option.noConfusion h
  by_cases h54 : 54 ≤ f1.length
  · have h54b : 54 ≤ f2.length := by
      have := (hlenle 53 (by omega)).mp (by omega)
      omega
    have hb : ∀ i, (i < 2 ∨ (18 ≤ i ∧ i < 34) ∨ (38 ≤ i ∧ i < 46) ∨ 50 ≤ i) →
        byteAt f1 i = byteAt f2 i := fun i hi => byteAt_congr f1 f2 i (hagree i hi)
    have hs0 : f1.getD 0 0 = f2.getD 0 0 := by
      rw [List.getD_eq_getElem?_getD, List.getD_eq_getElem?_getD, hagree 0 (by omega)]
    have hs1 : f1.getD 1 0 = f2.getD 1 0 := by
      rw [List.getD_eq_getElem?_getD, List.getD_eq_getElem?_getD, hagree 1 (by omega)]
    have e16 : ∀ off, 18 ≤ off → off + 1 < 34 → rdU16 f1 off = rdU16 f2 off := by
      intro off h1 h2
      unfold rdU16
      rw [hb off (by omega), hb (off + 1) (by omega)]
    have e32 : ∀ off, (18 ≤ off ∧ off + 3 < 34) ∨ (38 ≤ off ∧ off + 3 < 46) ∨ 50 ≤ off →
        rdU32 f1 off = rdU32 f2 off := by
      intro off h
      unfold rdU32
      rw [hb off (by omega), hb (off + 1) (by omega), hb (off + 2) (by omega),
        hb (off + 3) (by omega)]
    have ei32 : ∀ off, (18 ≤ off ∧ off + 3 < 34) ∨ (38 ≤ off ∧ off + 3 < 46) ∨ 50 ≤ off →
        rdI32 f1 off = rdI32 f2 off := by
      intro off h
      unfold rdI32
      rw [e32 off h]
    have hdrop : f1.drop 54 = f2.drop 54 := by
      apply List.ext_getElem?
      intro i
      rw [List.getElem?_drop, List.getElem?_drop]
      exact hagree (54 + i) (by omega)
    have hw : (infoHeaderOf f1).width = (infoHeaderOf f2).width := by
      rw [infoHeaderOf_fields, infoHeaderOf_fields]
      exact ei32 18 (by omega)
    have hh : (infoHeaderOf f1).height = (infoHeaderOf f2).height := by
      rw [infoHeaderOf_fields, infoHeaderOf_fields]
      exact ei32 22 (by omega)
    have hc : CheckLoadImageOnBGR24 (fileHeaderOf f1) (infoHeaderOf f1)
        = CheckLoadImageOnBGR24 (fileHeaderOf f2) (infoHeaderOf f2) := by
      rw [Bool.eq_iff_iff, CheckLoadImageOnBGR24_eq_true_iff,
        CheckLoadImageOnBGR24_eq_true_iff, fileHeaderOf_fields, fileHeaderOf_fields,
        infoHeaderOf_fields, infoHeaderOf_fields]
      simp only [hs0, hs1, e16 26 (by omega) (by omega), e16 28 (by omega) (by omega),
        e32 30 (by omega), ei32 38 (by omega), ei32 42 (by omega), ei32 50 (by omega)]
    rw [LoadBMP_of_header f1 h54, LoadBMP_of_header f2 h54b, hc, hw, hh, hdrop]
  · have h54b : ¬ 54 ≤ f2.length := by
      intro h2
      have := (hlenle 53 (by omega)).mpr (by omega)
      omega
    rw [LoadBMP_of_short_file f1 (by omega), LoadBMP_of_short_file f2 (by omega)]

/-- C18, witness: `onePixelFile` and `otherFieldsFile` differ in each of the seven
ignored fields (the stored pixel-data offset of the second is 100, not 54) and are
loaded to the same result. -/
theorem C18_ignored_header_fields_witness :
    rdU32 otherFieldsFile 10 = 100 ∧ onePixelFile ≠ otherFieldsFile
      ∧ LoadBMP onePixelFile = LoadBMP otherFieldsFile :=
  ⟨by decide, by decide, C18_ignored_header_fields onePixelFile otherFieldsFile (by
      intro i hi
      by_cases h58 : i < 58
      · interval_cases i <;> first | rfl | exact absurd hi (by decide)
      · have l1 : onePixelFile.length = 58 := rfl
        have l2 : otherFieldsFile.length = 58 := rfl
        rw [List.getElem?_eq_none (l1.trans_le (by omega)),
          List.getElem?_eq_none (l2.trans_le (by omega))])⟩

end ImgLib
